import Mathlib

/-!
Verification development for the process execution and streaming layer of the
pixel-cli repository: the command sanitizer (`claude-command-sanitizer.ts`),
the output streamer (`claude-output-streamer.ts`) and the process manager
(`enhanced-claude-manager.ts`), shallowly embedded over `List Char` strings.

JavaScript strings are modelled as `List Char`; regular-expression tests are
modelled by equivalent decidable scanners; `Map` objects are modelled as
association lists with `Map.set`/`Map.get`/`Map.delete` semantics.  Wall-clock
timestamp fields (`startTime`, `endTime`, `timestamp`) are omitted: the code
only stores `Date.now()` in them and never branches on them, and no claim
concerns them.
-/

namespace PixelCli

/-- JavaScript strings, modelled as lists of characters. -/
abbrev Str : Type := List Char

/-- Embed a Lean string literal as a `Str`. -/
def str (s : String) : Str := s.data

/-- Decimal rendering of a natural number (for interpolated messages). -/
def natStr (n : Nat) : Str := (Nat.repr n).data

/-- Decimal rendering of an integer (for interpolated messages). -/
def intStr (n : Int) : Str := (toString n).data

/-- ASCII whitespace, the fragment of JavaScript `\s` / `String.trim`
relevant to the inputs considered here. -/
def isWS (c : Char) : Bool := c.toNat = 32 || (9 ≤ c.toNat && c.toNat ≤ 13)

/-- JavaScript `String.prototype.trim`. -/
def trimStr (s : Str) : Str := ((s.dropWhile isWS).reverse.dropWhile isWS).reverse

/-- JavaScript `String.prototype.toLowerCase` (ASCII). -/
def lowerStr (s : Str) : Str := s.map Char.toLower

/-- Test that `p` is a prefix of `s` (JavaScript `String.prototype.startsWith`). -/
def prefixOf : Str → Str → Bool
  | [], _ => true
  | _ :: _, [] => false
  | a :: p, b :: s => decide (a = b) && prefixOf p s

/-- Test that `s` contains `p` as a substring (JavaScript `String.prototype.includes`). -/
def containsSub : Str → Str → Bool
  | [], p => p.isEmpty
  | c :: t, p => prefixOf p (c :: t) || containsSub t p

/-- Some suffix of the string satisfies `p` (an anchored regex test applied at
every position, i.e. an unanchored regex test). -/
def anySuffix (p : Str → Bool) : Str → Bool
  | [] => p []
  | c :: t => p (c :: t) || anySuffix p t

/-- Length of the longest prefix whose characters all satisfy `p`. -/
def countWhile (p : Char → Bool) : Str → Nat
  | [] => 0
  | c :: t => if p c then countWhile p t + 1 else 0

/-- Length of the initial run of copies of `c`. -/
def runLen (c : Char) : Str → Nat
  | [] => 0
  | d :: t => if d = c then runLen c t + 1 else 0

/-- The class `[A-Z]`. -/
def isUpperAZ (c : Char) : Bool := 65 ≤ c.toNat && c.toNat ≤ 90

/-- The class `[A-Z_]`, first character of the env-var pattern. -/
def isEnvStart (c : Char) : Bool := isUpperAZ c || c.toNat = 95

/-- The class `[A-Za-z0-9_-]` of the key-material patterns. -/
def isKeyMaterialChar (c : Char) : Bool :=
  (65 ≤ c.toNat && c.toNat ≤ 90) || (97 ≤ c.toNat && c.toNat ≤ 122) ||
  (48 ≤ c.toNat && c.toNat ≤ 57) || c.toNat = 95 || c.toNat = 45

/-- Character codes of `/[;&|`$(){}[\]<>*~\\]/`, the metacharacter set used on
the command name: `; & | backtick $ ( ) { } [ ] < > * ~ backslash`. -/
def commandMetaCodes : List Nat := [59, 38, 124, 96, 36, 40, 41, 123, 125, 91, 93, 60, 62, 42, 126, 92]

/-- Character codes of `/[;&|`$(){}[\]<>*~]/`, the metacharacter set used on
arguments (same set without the backslash). -/
def argMetaCodes : List Nat := [59, 38, 124, 96, 36, 40, 41, 123, 125, 91, 93, 60, 62, 42, 126]

/-- Some character of `s` is in the code set. -/
def hasMetaChar (codes : List Nat) (s : Str) : Bool := s.any (fun c => codes.contains c.toNat)

/-- The regex `/https?:\/\//i`: case-insensitively contains `http://` or `https://`. -/
def urlTest (s : Str) : Bool :=
  containsSub (lowerStr s) (str "http://") || containsSub (lowerStr s) (str "https://")

/-- Anchored match of `/\$\{?[A-Z_][A-Z0-9_]*\}?/` at the start of the string:
a `$` (36), an optional `{` (123), then a character in `[A-Z_]` (the trailing
`[A-Z0-9_]*` and `\}?` always match). -/
def envVarAt : Str → Bool
  | c :: d :: rest =>
      decide (c.toNat = 36) &&
        (isEnvStart d ||
          (decide (d.toNat = 123) && (match rest with | e :: _ => isEnvStart e | [] => false)))
  | _ => false

/-- The env-var reference test `/\$\{?[A-Z_][A-Z0-9_]*\}?/.test(arg)`. -/
def envVarTest (s : Str) : Bool := anySuffix envVarAt s

/-- The binary/control character class
`/[\x00-\x08\x0B\x0C\x0E-\x1F\x7F-\x9F]/` on a single character. -/
def isBinaryChar (c : Char) : Bool :=
  decide (c.toNat ≤ 8) || decide (c.toNat = 11) || decide (c.toNat = 12) ||
  (decide (14 ≤ c.toNat) && decide (c.toNat ≤ 31)) ||
  (decide (127 ≤ c.toNat) && decide (c.toNat ≤ 159))

/-- The binary/control character test on a string. -/
def binaryTest (s : Str) : Bool := s.any isBinaryChar

/-- The literal `sk-ant-`. -/
def skAntCore : Str := str "sk-ant-"

/-- The regex `/sk-ant-[a-zA-Z0-9_-]{95,}/.test(arg)`: at some position,
`sk-ant-` followed by at least 95 key-material characters. -/
def skAntPatternTest (s : Str) : Bool :=
  anySuffix (fun t => prefixOf skAntCore t && decide (95 ≤ countWhile isKeyMaterialChar (t.drop 7))) s

/-- The regex `/['\"]?[A-Za-z0-9_-]{32,}['\"]?/.test(arg)`: a run of at least
32 key-material characters somewhere (the optional quotes impose nothing). -/
def keyMaterialTest (s : Str) : Bool :=
  anySuffix (fun t => decide (32 ≤ countWhile isKeyMaterialChar t)) s

/-- A custom allow/block pattern (a `RegExp` in the source): its `source` text
and its decidable test. -/
structure RegexPat where
  source : Str
  test : Str → Bool

/-- The `SanitizationOptions` of `claude-command-sanitizer.ts`, with every
field required (the manager always works with the merged
`Required<SanitizationOptions>`). -/
structure SanitizationOptions where
  allowFileSystemAccess : Bool
  allowNetworkAccess : Bool
  allowEnvironmentVariables : Bool
  allowShellMetacharacters : Bool
  maxCommandLength : Nat
  maxArgumentLength : Nat
  maxArgumentCount : Nat
  customAllowedPatterns : List RegexPat
  customBlockedPatterns : List RegexPat

/-- The `SanitizationResult` record. -/
structure SanitizationResult where
  isValid : Bool
  sanitizedCommand : Option Str
  sanitizedArgs : Option (List Str)
  sanitizedWorkingDirectory : Option Str
  violations : List Str
  warnings : List Str

/-- JavaScript `result.violations.push(m); result.isValid = false;` — the only
way the source ever records a violation. -/
def pushViolation (r : SanitizationResult) (m : Str) : SanitizationResult :=
  { r with violations := r.violations ++ [m], isValid := false }

/-- JavaScript `result.warnings.push(m);` — warnings never touch `isValid`. -/
def pushWarning (r : SanitizationResult) (m : Str) : SanitizationResult :=
  { r with warnings := r.warnings ++ [m] }

/-- Message of the command-length violation. -/
def cmdTooLongMsg (maxLen : Nat) : Str :=
  str "Command too long: exceeds maximum length of " ++ natStr maxLen ++ str " characters"

/-- Message of the argument-length violation in `validateArguments`. -/
def argTooLongMsg (i len maxLen : Nat) : Str :=
  str "Argument " ++ natStr i ++ str " too long: " ++ natStr len ++
  str " exceeds maximum of " ++ natStr maxLen ++ str " characters"

/-- Message of the argument-count violation. -/
def tooManyArgsMsg (n maxN : Nat) : Str :=
  str "Too many arguments: " ++ natStr n ++ str " exceeds limit of " ++ natStr maxN

/-- The `validateCommandLength` check: empty command (early return), command
length bound, and recording of the trimmed command. -/
def validateCommandLength (command : Str) (r : SanitizationResult)
    (opts : SanitizationOptions) : SanitizationResult :=
  let t := trimStr command
  if t.length = 0 then
    pushViolation r (str "Empty command not allowed")
  else
    let r := if t.length > opts.maxCommandLength then pushViolation r (cmdTooLongMsg opts.maxCommandLength) else r
    { r with sanitizedCommand := some t }

/-- The `validateCommandName` check: shell metacharacters (unless allowed),
path traversal, custom blocked patterns; all on the trimmed command. -/
def validateCommandName (command : Str) (r : SanitizationResult)
    (opts : SanitizationOptions) : SanitizationResult :=
  let t := trimStr command
  let r := if !opts.allowShellMetacharacters && hasMetaChar commandMetaCodes t then
             pushViolation r (str "Shell metacharacters detected in command") else r
  let r := if containsSub t (str "..") then
             pushViolation r (str "Path traversal not allowed in command name") else r
  opts.customBlockedPatterns.foldl
    (fun r pat => if pat.test t then
        pushViolation r (str "Command matches blocked pattern: " ++ pat.source) else r) r

/-- The `validateArgumentCount` check. -/
def validateArgumentCount (args : List Str) (r : SanitizationResult)
    (opts : SanitizationOptions) : SanitizationResult :=
  if args.length > opts.maxArgumentCount then
    pushViolation r (tooManyArgsMsg args.length opts.maxArgumentCount) else r

/-- One iteration of the `validateArguments` loop, on the indexed argument
`ia = (i, arg)`: length, shell metacharacters, network URLs, path traversal,
env-var references, binary/control characters. -/
def checkArg (opts : SanitizationOptions) (r : SanitizationResult)
    (ia : Nat × Str) : SanitizationResult :=
  let i := ia.1
  let arg := ia.2
  let r := if arg.length > opts.maxArgumentLength then
             pushViolation r (argTooLongMsg i arg.length opts.maxArgumentLength) else r
  let r := if !opts.allowShellMetacharacters && hasMetaChar argMetaCodes arg then
             pushViolation r (str "Shell metacharacters detected in argument " ++ natStr i ++ str ": " ++ arg) else r
  let r := if !opts.allowNetworkAccess && urlTest arg then
             pushViolation r (str "Network access disabled: argument " ++ natStr i ++ str " contains URLs") else r
  let r := if containsSub arg (str "..") then
             pushViolation r (str "Path traversal detected in argument " ++ natStr i ++ str ": " ++ arg) else r
  let r := if !opts.allowEnvironmentVariables && envVarTest arg then
             pushViolation r (str "Environment variable reference in argument " ++ natStr i ++ str ": " ++ arg) else r
  if binaryTest arg then
    pushViolation r (str "Binary or control characters in argument " ++ natStr i) else r

/-- The `validateArguments` loop. -/
def validateArguments (args : List Str) (r : SanitizationResult)
    (opts : SanitizationOptions) : SanitizationResult :=
  args.enum.foldl (checkArg opts) r

/-- Sensitive path prefixes of `isSensitiveDirectory`. -/
def sensitivePaths : List Str :=
  [str "/etc", str "/proc", str "/sys", str "/root", str "/boot", str "/dev", str "/var/log"]

/-- The private `isSensitiveDirectory` helper. -/
def isSensitiveDirectory (path : Str) : Bool :=
  sensitivePaths.any (fun sp => prefixOf sp path)

/-- The `validateWorkingDirectory` check: nothing when absent; a violation
(with early return) when filesystem access is disallowed; otherwise path
traversal is a violation and a sensitive directory only a warning. -/
def validateWorkingDirectory (wd : Option Str) (r : SanitizationResult)
    (opts : SanitizationOptions) : SanitizationResult :=
  match wd with
  | none => r
  | some w =>
    if !opts.allowFileSystemAccess then
      pushViolation r (str "File system access disabled but working directory specified")
    else
      let r := if containsSub w (str "..") then
                 pushViolation r (str "Path traversal not allowed in working directory") else r
      if isSensitiveDirectory w then
        pushWarning r (str "Working directory points to sensitive system location") else r

/-- The `dangerousArgs` list of `validateClaudeArguments`. -/
def dangerousClaudeArgs : List Str := [str "--eval", str "--execute", str "--shell", str "--run"]

/-- The `fileOperationFlags` list of `validateClaudeArguments`. -/
def fileOperationFlags : List Str := [str "--file", str "-f", str "--output", str "-o"]

/-- The `validateClaudeArguments` check (run only when the command is exactly
`claude`): two warning-only loops. -/
def validateClaudeArguments (args : List Str) (r : SanitizationResult) : SanitizationResult :=
  let r := args.foldl
    (fun r arg => if dangerousClaudeArgs.any (fun d => containsSub arg d) then
        pushWarning r (str "Potentially dangerous Claude CLI argument: " ++ arg) else r) r
  args.foldl
    (fun r arg => if fileOperationFlags.any (fun f => prefixOf f arg) then
        pushWarning r (str "File operation detected in Claude argument: " ++ arg) else r) r

/-- The `dangerousCommands` list of `validateDangerousOperations`. -/
def dangerousCommands : List Str :=
  [str "rm", str "del", str "delete", str "format", str "mkfs", str "dd"]

/-- The sensitive-directory fragments scanned for in arguments by
`validateDangerousOperations` (note the trailing slash on each). -/
def sensitiveArgFragments : List Str :=
  [str "/etc/", str "/root/", str "/sys/", str "/boot/", str "/dev/"]

/-- The `validateDangerousOperations` check: a violation only when the command
itself (lowercased) is a dangerous file-management command AND either some
argument contains a sensitive directory fragment or the working directory is
sensitive. -/
def validateDangerousOperations (command : Str) (args : List Str) (wd : Option Str)
    (r : SanitizationResult) : SanitizationResult :=
  if dangerousCommands.any (fun d => decide (d = lowerStr command)) then
    let sensitiveArgs := args.any (fun a => sensitiveArgFragments.any (fun f => containsSub a f))
    if sensitiveArgs || (match wd with | some w => isSensitiveDirectory w | none => false) then
      pushViolation r (str "Attempted dangerous file operation on sensitive system directory")
    else r
  else r

/-- One iteration of the `validateApiKeySafety` loop: two violations (exposed
`sk-ant-` keys; a bare `ANTHROPIC_API_KEY` mention) and one warning
(generic key material). -/
def checkApiKeyArg (r : SanitizationResult) (ia : Nat × Str) : SanitizationResult :=
  let i := ia.1
  let arg := ia.2
  let r := if containsSub arg skAntCore || skAntPatternTest arg then
             pushViolation r (str "Argument " ++ natStr i ++ str " contains an exposed API key") else r
  let r := if containsSub arg (str "ANTHROPIC_API_KEY") && !prefixOf (str "$") arg then
             pushViolation r (str "Argument " ++ natStr i ++ str " may contain exposed API key") else r
  if keyMaterialTest arg && containsSub (lowerStr arg) (str "key") then
    pushWarning r (str "Argument " ++ natStr i ++ str " may contain sensitive key material") else r

/-- The `validateApiKeySafety` loop. -/
def validateApiKeySafety (args : List Str) (r : SanitizationResult) : SanitizationResult :=
  args.enum.foldl checkApiKeyArg r

/-- Consume one-or-more whitespace characters (regex `\s+`) before a
non-whitespace continuation; returns the rest on success. -/
def dropWS1 (s : Str) : Option Str :=
  match s with
  | c :: t => if isWS c then some (t.dropWhile isWS) else none
  | [] => none

/-- Consume zero-or-more whitespace characters (regex `\s*`). -/
def dropWS0 (s : Str) : Str := s.dropWhile isWS

/-- Anchored match of a sequence of literal words separated by `\s+`. -/
def wordSeqAt : List Str → Str → Bool
  | [], _ => true
  | [w], s => prefixOf w s
  | w :: ws, s =>
    prefixOf w s &&
      (match dropWS1 (s.drop w.length) with
       | some s1 => wordSeqAt ws s1
       | none => false)

/-- Anchored match of `/system:\s*override/i` on a lowercased string. -/
def systemOverrideAt (s : Str) : Bool :=
  prefixOf (str "system:") s && prefixOf (str "override") (dropWS0 (s.drop 7))

/-- Anchored match of `/\\n\\n#\s*new\s+role/i` on a lowercased string: the
five literal characters backslash-n-backslash-n-sharp, then `\s*`, `new`,
`\s+`, `role`. -/
def newRoleAt (s : Str) : Bool :=
  prefixOf (str "\\n\\n#") s &&
    (let s1 := dropWS0 (s.drop 5)
     prefixOf (str "new") s1 &&
       (match dropWS1 (s1.drop 3) with
        | some s2 => prefixOf (str "role") s2
        | none => false))

/-- The five `injectionPatterns` tests of `validatePromptSafety`, in source
order, applied case-insensitively. -/
def injectionMatches (arg : Str) : List Bool :=
  let l := lowerStr arg
  [anySuffix (wordSeqAt [str "ignore", str "previous", str "instructions"]) l,
   anySuffix (wordSeqAt [str "forget", str "everything"]) l,
   anySuffix (wordSeqAt [str "you", str "are", str "now"]) l,
   anySuffix systemOverrideAt l,
   anySuffix newRoleAt l]

/-- The first repetition check of `hasExcessiveRepetition`: `/(.)\1{49,}/`,
50 copies of one (non-newline) character in a row. -/
def hasCharRun50 : Str → Bool
  | [] => false
  | c :: t => (decide (c.toNat ≠ 10) && decide (50 ≤ runLen c t + 1)) || hasCharRun50 t

/-- Check that `s` starts with `k` consecutive copies of the block `b`. -/
def repBlocks (b : Str) : Nat → Str → Bool
  | 0, _ => true
  | k + 1, s => prefixOf b s && repBlocks b k (s.drop b.length)

/-- Anchored match of `/(.{3,})\1{9,}/`: some non-newline block of length at
least 3 repeated 10 times from this position. -/
def blockRepeatAt (s : Str) : Bool :=
  (List.range (s.length / 10 + 1)).any fun L =>
    decide (3 ≤ L) && (s.take L).all (fun c => decide (c.toNat ≠ 10)) && repBlocks (s.take L) 10 s

/-- The private `hasExcessiveRepetition` helper. -/
def hasExcessiveRepetition (s : Str) : Bool :=
  hasCharRun50 s || anySuffix blockRepeatAt s

/-- One iteration of the `validatePromptSafety` loop: one warning per matching
injection pattern, plus the excessive-repetition warning. All warning-only. -/
def checkPromptArg (r : SanitizationResult) (ia : Nat × Str) : SanitizationResult :=
  let i := ia.1
  let arg := ia.2
  let r := (injectionMatches arg).foldl
    (fun r b => if b then
        pushWarning r (str "Potential prompt injection detected in argument " ++ natStr i) else r) r
  if hasExcessiveRepetition arg then
    pushWarning r (str "Excessive character repetition in argument " ++ natStr i ++ str " (potential DoS)")
  else r

/-- The `validatePromptSafety` loop. -/
def validatePromptSafety (args : List Str) (r : SanitizationResult) : SanitizationResult :=
  args.enum.foldl checkPromptArg r

/-- The private `performClaudeSpecificValidations`: Claude CLI argument
warnings (only for the literal command `claude`), dangerous file operations,
API key exposure, prompt-injection safety. -/
def performClaudeSpecificValidations (command : Str) (args : List Str) (wd : Option Str)
    (r : SanitizationResult) : SanitizationResult :=
  let r := if command = str "claude" then validateClaudeArguments args r else r
  let r := validateDangerousOperations command args wd r
  let r := validateApiKeySafety args r
  validatePromptSafety args r

/-- The public `sanitizeCommand` entry point: initial result, the five core
validators in order, then the Claude-specific validations. -/
def sanitizeCommand (command : Str) (args : List Str) (wd : Option Str)
    (opts : SanitizationOptions) : SanitizationResult :=
  let r : SanitizationResult :=
    { isValid := true, sanitizedCommand := some command, sanitizedArgs := some args,
      sanitizedWorkingDirectory := wd, violations := [], warnings := [] }
  let r := validateCommandLength command r opts
  let r := validateCommandName command r opts
  let r := validateArgumentCount args r opts
  let r := validateArguments args r opts
  let r := validateWorkingDirectory wd r opts
  performClaudeSpecificValidations command args wd r

/-- The effective options of the manager's sanitizer: the Claude profile of
`createClaudeSanitizer`, merged (identically) with the overrides passed by
`sanitizeClaudeCommand`; both custom pattern lists are empty. -/
def claudeOptions : SanitizationOptions :=
  { allowFileSystemAccess := true, allowNetworkAccess := true,
    allowEnvironmentVariables := true, allowShellMetacharacters := false,
    maxCommandLength := 100, maxArgumentLength := 2000, maxArgumentCount := 50,
    customAllowedPatterns := [], customBlockedPatterns := [] }

/-- The `sanitizeClaudeCommand` wrapper used by `executeCommand`. -/
def sanitizeClaudeCommand (command : Str) (args : List Str) (wd : Option Str) : SanitizationResult :=
  sanitizeCommand command args wd claudeOptions

/-! ## Association-list maps

JavaScript `Map` objects, as insertion-ordered association lists. -/

/-- JavaScript `Map.prototype.get` (as an `Option`). -/
def mfind {α : Type} : List (Str × α) → Str → Option α
  | [], _ => none
  | (k, v) :: t, k1 => if k = k1 then some v else mfind t k1

/-- JavaScript `Map.prototype.set`: replace in place, or append. -/
def mput {α : Type} : List (Str × α) → Str → α → List (Str × α)
  | [], k1, v1 => [(k1, v1)]
  | (k, v) :: t, k1, v1 => if k = k1 then (k1, v1) :: t else (k, v) :: mput t k1 v1

/-! ## Output streamer (`claude-output-streamer.ts`) -/

/-- The output event types of `types/claude.ts`. -/
inductive StreamType
  | stdout
  | stderr
  | exit
  | error
deriving DecidableEq

/-- The `ClaudeOutput` value passed into `streamOutput` (timestamp omitted,
see the file header). -/
structure ClaudeOutput where
  processId : Str
  type : StreamType
  data : Str
  exitCode : Option Int
deriving DecidableEq

/-- The `ClaudeStreamEvent` delivered to subscribers (timestamp omitted). -/
structure ClaudeStreamEvent where
  processId : Str
  type : StreamType
  data : Str
  exitCode : Option Int
deriving DecidableEq

/-- State of a `ClaudeOutputStreamer` instance.  `activeStreams` is the key
set of the `Map<string, boolean>` (its values are always `true`);
`eventLog` records every typed `ClaudeStreamEvent` emission in order — the
`EventEmitter` delivers each emission synchronously to the subscribers of the
matching channels, so a subscriber observes the subsequence of `eventLog` on
its channel.  The untyped `stream-started` / `stream-stopped` lifecycle
notifications and the listener registry itself are not modelled: no claim
depends on them. -/
structure ClaudeOutputStreamer where
  activeStreams : List Str
  buffers : List (Str × List Str)
  maxBufferSize : Nat
  eventLog : List ClaudeStreamEvent
deriving DecidableEq

namespace ClaudeOutputStreamer

/-- The constructor: `maxBufferSize = config.maxBufferSize || 1000`. -/
def init (maxB : Nat) : ClaudeOutputStreamer :=
  { activeStreams := [], buffers := [], maxBufferSize := if maxB = 0 then 1000 else maxB,
    eventLog := [] }

/-- The `isStreaming` query: `activeStreams.get(processId) || false`. -/
def isStreaming (s : ClaudeOutputStreamer) (pid : Str) : Bool :=
  decide (pid ∈ s.activeStreams)

/-- The `startStreaming` method: warn-and-return if already active, else mark
active and reset the buffer to `[]`. -/
def startStreaming (s : ClaudeOutputStreamer) (pid : Str) : ClaudeOutputStreamer :=
  if pid ∈ s.activeStreams then s
  else { s with activeStreams := s.activeStreams ++ [pid], buffers := mput s.buffers pid [] }

/-- The private `addToBuffer`: warn-and-return if no buffer exists; push the
chunk; splice off the oldest entries beyond `maxBufferSize`. -/
def addToBuffer (s : ClaudeOutputStreamer) (pid : Str) (data : Str) : ClaudeOutputStreamer :=
  match mfind s.buffers pid with
  | none => s
  | some buf =>
    let buf1 := buf ++ [data]
    let buf2 := if buf1.length > s.maxBufferSize then buf1.drop (buf1.length - s.maxBufferSize) else buf1
    { s with buffers := mput s.buffers pid buf2 }

/-- The `streamOutput` method: no-op for an inactive stream; otherwise buffer
the chunk and emit the event (on the general, process-specific and
type-specific channels — one emission in `eventLog`). -/
def streamOutput (s : ClaudeOutputStreamer) (o : ClaudeOutput) : ClaudeOutputStreamer :=
  if o.processId ∈ s.activeStreams then
    let s1 := addToBuffer s o.processId o.data
    { s1 with eventLog := s1.eventLog ++
        [{ processId := o.processId, type := o.type, data := o.data, exitCode := o.exitCode }] }
  else s

/-- The `streamError` method: no-op for an inactive stream; otherwise buffer
the message and emit an `error`-typed event. -/
def streamError (s : ClaudeOutputStreamer) (pid : Str) (err : Str) : ClaudeOutputStreamer :=
  if pid ∈ s.activeStreams then
    let s1 := addToBuffer s pid err
    { s1 with eventLog := s1.eventLog ++
        [{ processId := pid, type := StreamType.error, data := err, exitCode := none }] }
  else s

/-- The `stopStreaming` method: warn-and-return if not active; otherwise
delete the id from `activeStreams`.  The buffer entry is NOT deleted. -/
def stopStreaming (s : ClaudeOutputStreamer) (pid : Str) : ClaudeOutputStreamer :=
  if pid ∈ s.activeStreams then
    { s with activeStreams := s.activeStreams.filter (fun q => decide (q ≠ pid)) }
  else s

/-- Payload text of the exit event. -/
def exitMessage (code : Int) : Str := str "Claude process exited with code " ++ intStr code

/-- The `exit`-typed event emitted by `streamProcessExit`. -/
def exitStreamEvent (pid : Str) (code : Int) : ClaudeStreamEvent :=
  { processId := pid, type := StreamType.exit, data := exitMessage code, exitCode := some code }

/-- The `streamProcessExit` method: no-op for an inactive stream; otherwise
emit the `exit` event (never buffered) and then `stopStreaming`. -/
def streamProcessExit (s : ClaudeOutputStreamer) (pid : Str) (code : Int) : ClaudeOutputStreamer :=
  if pid ∈ s.activeStreams then
    stopStreaming { s with eventLog := s.eventLog ++ [exitStreamEvent pid code] } pid
  else s

/-- The `getFullOutput` query: buffered chunks joined, empty if unknown. -/
def getFullOutput (s : ClaudeOutputStreamer) (pid : Str) : Str :=
  match mfind s.buffers pid with
  | some buf => buf.flatten
  | none => []

/-- The `shutdown` method: stop every active stream and clear all buffers
(`removeAllListeners` concerns the unmodelled registry). -/
def shutdown (s : ClaudeOutputStreamer) : ClaudeOutputStreamer :=
  { s with activeStreams := [], buffers := [] }

end ClaudeOutputStreamer

/-- An externally driven streamer operation, for quantifying over call
sequences on one `ClaudeOutputStreamer` instance. -/
inductive SOp
  | start (pid : Str)
  | out (o : ClaudeOutput)
  | err (pid : Str) (message : Str)
  | exit (pid : Str) (code : Int)
  | stop (pid : Str)
  | shutdownOp
deriving DecidableEq

/-- Apply one streamer operation. -/
def sstep (s : ClaudeOutputStreamer) : SOp → ClaudeOutputStreamer
  | SOp.start pid => ClaudeOutputStreamer.startStreaming s pid
  | SOp.out o => ClaudeOutputStreamer.streamOutput s o
  | SOp.err pid m => ClaudeOutputStreamer.streamError s pid m
  | SOp.exit pid c => ClaudeOutputStreamer.streamProcessExit s pid c
  | SOp.stop pid => ClaudeOutputStreamer.stopStreaming s pid
  | SOp.shutdownOp => ClaudeOutputStreamer.shutdown s

/-- Apply a sequence of streamer operations. -/
def srun (s : ClaudeOutputStreamer) (ops : List SOp) : ClaudeOutputStreamer :=
  ops.foldl sstep s

/-- The subsequence of emitted events a subscriber on the process-specific
channels of `pid` observes. -/
def eventsFor (s : ClaudeOutputStreamer) (pid : Str) : List ClaudeStreamEvent :=
  s.eventLog.filter (fun e => decide (e.processId = pid))

/-- The `ClaudeStreamEvent` that `streamOutput` emits for an accepted output. -/
def streamEventOfOutput (o : ClaudeOutput) : ClaudeStreamEvent :=
  { processId := o.processId, type := o.type, data := o.data, exitCode := o.exitCode }

/-! ## Process manager (`enhanced-claude-manager.ts`) -/

/-- The status of a `ClaudeProcess` record. -/
inductive Status
  | running
  | completed
  | failed
  | killed
deriving DecidableEq

/-- The `ClaudeCommand` value object of `types/claude.ts`. -/
structure ClaudeCommand where
  id : Str
  command : Str
  args : List Str
  workingDirectory : Option Str
  timeout : Option Nat
  input : Option Str
deriving DecidableEq

/-- The `ClaudeProcess` record of `types/claude.ts` (`startTime`/`endTime`
omitted, see the file header). -/
structure ClaudeProcess where
  id : Str
  command : ClaudeCommand
  status : Status
  pid : Option Nat
  exitCode : Option Int
  error : Option Str
deriving DecidableEq

/-- State of an `EnhancedClaudeManager` instance.  `processes` and
`childProcesses` are the two `Map`s of the source (a child handle is modelled
by its id).  Two bookkeeping fields make the asynchronous control flow
explicit: `spawnCount` counts `spawn` calls (the spec's spawn-count probe) and
doubles as the OS pid source, and `pending` is the set of command ids whose
`spawnClaudeProcess` promise has not yet settled — in the source this set is
implicit in the not-yet-run continuations of `executeCommand`; a promise
settles at most once. -/
structure EnhancedClaudeManager where
  processes : List (Str × ClaudeProcess)
  childProcesses : List Str
  outputStreamer : ClaudeOutputStreamer
  isShuttingDown : Bool
  spawnCount : Nat
  pending : List Str
deriving DecidableEq

/-- A fresh manager with the default config (`maxBufferSize: 1000`). -/
def initManager : EnhancedClaudeManager :=
  { processes := [], childProcesses := [], outputStreamer := ClaudeOutputStreamer.init 1000,
    isShuttingDown := false, spawnCount := 0, pending := [] }

/-- Outcome of the synchronous phase of `executeCommand` (everything up to and
including the `spawn` call inside `spawnClaudeProcess`). -/
inductive ExecStartResult
  | shutdownError
  | sanitizationError (violations : List Str)
  | duplicateIdError
  | started
deriving DecidableEq

/-- The synchronous phase of `executeCommand`: the shutdown check, the
sanitizer (rejection carries the violation list; warnings are only logged),
the duplicate-id check, creation of the `running` record, and the `spawn`
inside `spawnClaudeProcess` (which assigns the pid and registers the child
handle).  On every rejection the state is returned unchanged. -/
def execStart (st : EnhancedClaudeManager) (cmd : ClaudeCommand) :
    ExecStartResult × EnhancedClaudeManager :=
  if st.isShuttingDown then (ExecStartResult.shutdownError, st)
  else
    let sr := sanitizeClaudeCommand cmd.command cmd.args cmd.workingDirectory
    if !sr.isValid then (ExecStartResult.sanitizationError sr.violations, st)
    else if (mfind st.processes cmd.id).isSome then (ExecStartResult.duplicateIdError, st)
    else
      let p : ClaudeProcess :=
        { id := cmd.id, command := cmd, status := Status.running,
          pid := some st.spawnCount, exitCode := none, error := none }
      (ExecStartResult.started,
        { st with processes := mput st.processes cmd.id p,
                  childProcesses := st.childProcesses ++ [cmd.id],
                  pending := st.pending ++ [cmd.id],
                  spawnCount := st.spawnCount + 1 })

/-- The settlement of the `spawnClaudeProcess` promise for `id`: the
`try`/`catch`/`finally` around the `await` in `executeCommand`.  Success
marks the record `completed` with `exitCode = 0`; any failure marks it
`failed` with `exitCode = 1` and the error text — unconditionally, whatever
the current status.  The `finally` clause drops the child handle; settling
removes `id` from `pending` (a promise settles once).  A second settlement
attempt, or one for a never-started id, is a no-op. -/
def settle (st : EnhancedClaudeManager) (id : Str) (outcome : Except Str Str) :
    EnhancedClaudeManager :=
  if id ∈ st.pending then
    let st1 :=
      match mfind st.processes id with
      | none => st
      | some p =>
        match outcome with
        | Except.ok _ =>
          let p1 := { p with status := Status.completed, exitCode := some 0 }
          { st with processes := mput st.processes id p1 }
        | Except.error m =>
          let p1 := { p with status := Status.failed, error := some m, exitCode := some 1 }
          { st with processes := mput st.processes id p1 }
    { st1 with childProcesses := st1.childProcesses.filter (fun q => decide (q ≠ id)),
               pending := st1.pending.filter (fun q => decide (q ≠ id)) }
  else st

/-- Decimal rendering of a nullable exit code (JavaScript prints `null`). -/
def optIntStr : Option Int → Str
  | some n => intStr n
  | none => str "null"

/-- The rejection message of the `exit` handler for a nonzero/null code. -/
def exitErrorMessage (code : Option Int) (signal : Option Str) (errorOutput : Str) : Str :=
  str "Claude process exited with code " ++ optIntStr code ++
  (match signal with | some sg => str " (" ++ sg ++ str ")" | none => []) ++
  str ": " ++ errorOutput

/-- A source of stdio chunks in `spawnClaudeProcess`. -/
inductive ChunkSrc
  | stdoutSrc
  | stderrSrc
deriving DecidableEq

/-- The `ClaudeOutput` that a stdio data handler forwards to the streamer. -/
def outputOfChunk (id : Str) (c : ChunkSrc × Str) : ClaudeOutput :=
  { processId := id,
    type := match c.1 with | ChunkSrc.stdoutSrc => StreamType.stdout | ChunkSrc.stderrSrc => StreamType.stderr,
    data := c.2, exitCode := none }

/-- A stdout/stderr `data` handler firing: accumulate (into the promise-local
accumulators, which reappear as the `output`/`errorOutput` arguments of the
settlement events) and forward to the streamer when streaming is active. -/
def chunkStep (st : EnhancedClaudeManager) (id : Str) (src : ChunkSrc) (data : Str) :
    EnhancedClaudeManager :=
  if ClaudeOutputStreamer.isStreaming st.outputStreamer id then
    { st with outputStreamer :=
        ClaudeOutputStreamer.streamOutput st.outputStreamer (outputOfChunk id (src, data)) }
  else st

/-- The child `exit` handler: stream the exit event (`code || 0`) when
streaming is active, then settle — resolve with the accumulated stdout on
code 0, reject otherwise. -/
def childExitStep (st : EnhancedClaudeManager) (id : Str) (code : Option Int)
    (signal : Option Str) (output errorOutput : Str) : EnhancedClaudeManager :=
  let st1 :=
    if ClaudeOutputStreamer.isStreaming st.outputStreamer id then
      { st with outputStreamer :=
          ClaudeOutputStreamer.streamProcessExit st.outputStreamer id (code.getD 0) }
    else st
  settle st1 id
    (if code = some 0 then Except.ok output
     else Except.error (exitErrorMessage code signal errorOutput))

/-- The child `error` handler (spawn failure): stream the error when streaming
is active, then reject. -/
def childErrorStep (st : EnhancedClaudeManager) (id : Str) (m : Str) : EnhancedClaudeManager :=
  let st1 :=
    if ClaudeOutputStreamer.isStreaming st.outputStreamer id then
      { st with outputStreamer := ClaudeOutputStreamer.streamError st.outputStreamer id m }
    else st
  settle st1 id (Except.error m)

/-- The timeout handler: SIGTERM the child (the signal itself is not
observable in this model) and reject with the timeout message. -/
def timeoutStep (st : EnhancedClaudeManager) (id : Str) (t : Nat) : EnhancedClaudeManager :=
  settle st id (Except.error (str "Command timed out after " ++ natStr t ++ str "ms"))

/-- The `killProcess` method: `false` for an unknown or non-`running` record;
otherwise SIGTERM the child (with a scheduled SIGKILL, not observable here),
drop the child handle, mark the record `killed` with `exitCode = -1`
immediately, and stop any open stream. -/
def killProcess (st : EnhancedClaudeManager) (id : Str) : Bool × EnhancedClaudeManager :=
  match mfind st.processes id with
  | none => (false, st)
  | some p =>
    if p.status ≠ Status.running then (false, st)
    else
      let st1 := if id ∈ st.childProcesses then
          { st with childProcesses := st.childProcesses.filter (fun q => decide (q ≠ id)) }
        else st
      let p1 := { p with status := Status.killed, exitCode := some (-1),
                         error := some (str "Process killed by user") }
      (true, { st1 with processes := mput st1.processes id p1,
                        outputStreamer := ClaudeOutputStreamer.stopStreaming st1.outputStreamer id })

/-- The `getActiveProcesses` query: records currently `running`. -/
def getActiveProcesses (st : EnhancedClaudeManager) : List ClaudeProcess :=
  (st.processes.map (fun kv => kv.2)).filter (fun p => decide (p.status = Status.running))

/-- The `shutdown` method: idempotent; mark shutting down, kill every active
process, shut the streamer down, clear both maps. -/
def shutdownStep (st : EnhancedClaudeManager) : EnhancedClaudeManager :=
  if st.isShuttingDown then st
  else
    let st1 := { st with isShuttingDown := true }
    let st2 := (getActiveProcesses st1).foldl (fun s p => (killProcess s p.id).2) st1
    { st2 with outputStreamer := ClaudeOutputStreamer.shutdown st2.outputStreamer,
               processes := [], childProcesses := [] }

/-- An externally observable event on one manager instance: a call into the
manager, or an asynchronous callback of an in-flight child process firing. -/
inductive MEvent
  | start (cmd : ClaudeCommand)
  | chunk (id : Str) (src : ChunkSrc) (data : Str)
  | childExit (id : Str) (code : Option Int) (signal : Option Str) (output errorOutput : Str)
  | childError (id : Str) (message : Str)
  | timeoutFire (id : Str) (t : Nat)
  | kill (id : Str)
  | shutdownEvent
deriving DecidableEq

/-- Apply one manager event. -/
def mstep (st : EnhancedClaudeManager) : MEvent → EnhancedClaudeManager
  | MEvent.start cmd => (execStart st cmd).2
  | MEvent.chunk id src d => chunkStep st id src d
  | MEvent.childExit id c sg o e => childExitStep st id c sg o e
  | MEvent.childError id m => childErrorStep st id m
  | MEvent.timeoutFire id t => timeoutStep st id t
  | MEvent.kill id => (killProcess st id).2
  | MEvent.shutdownEvent => shutdownStep st

/-- Apply a sequence of manager events. -/
def mrun (st : EnhancedClaudeManager) (evs : List MEvent) : EnhancedClaudeManager :=
  evs.foldl mstep st

/-- Status reported by `getProcess(id)`. -/
def statusOf (st : EnhancedClaudeManager) (id : Str) : Option Status :=
  (mfind st.processes id).map (fun p => p.status)

/-- Exit code reported by `getProcess(id)` (doubly optional: the record may
not exist, and its `exitCode` field may be unset). -/
def exitCodeOf (st : EnhancedClaudeManager) (id : Str) : Option Int :=
  match mfind st.processes id with
  | some p => p.exitCode
  | none => none

/-- The event is a settlement callback (child exit, child error, or timeout)
of the in-flight execution of `id`. -/
def settlesId : MEvent → Str → Prop
  | MEvent.childExit p _ _ _ _, id => p = id
  | MEvent.childError p _, id => p = id
  | MEvent.timeoutFire p _, id => p = id
  | _, _ => False

/-! ## The streaming execution path (`executeStreamingCommand`, claim C8) -/

/-- The stdio handlers of `spawnClaudeProcess` firing for one child: each
chunk is forwarded to the streamer when this id's streaming is active. -/
def runChildChunks (s : ClaudeOutputStreamer) (id : Str)
    (chunks : List (ChunkSrc × Str)) : ClaudeOutputStreamer :=
  chunks.foldl
    (fun s c => if ClaudeOutputStreamer.isStreaming s id
                then ClaudeOutputStreamer.streamOutput s (outputOfChunk id c) else s) s

/-- The synchronous stdout accumulation of `spawnClaudeProcess`
(`output += data` in the stdout handler only; stderr goes to a separate
accumulator). -/
def accumulate (chunks : List (ChunkSrc × Str)) : Str :=
  chunks.foldl (fun acc c => if c.1 = ChunkSrc.stdoutSrc then acc ++ c.2 else acc) []

/-- The text `executeCommand` resolves with when the child exits 0: the
accumulated stdout. -/
def executeCommandOutput (chunks : List (ChunkSrc × Str)) : Str := accumulate chunks

/-- The text `executeStreamingCommand` resolves with when the child exits 0,
as a function of the child's chunk sequence: open the stream, run the stdio
handlers, stream the exit event (which closes the stream), then prefer the
streamer's buffered full output over the synchronous accumulation
(`return fullOutput || result`; the trailing `finally` unsubscribes and stops
the already-stopped stream, not affecting the returned text). -/
def executeStreamingOutput (maxB : Nat) (id : Str)
    (chunks : List (ChunkSrc × Str)) : Str :=
  let s0 := ClaudeOutputStreamer.startStreaming (ClaudeOutputStreamer.init maxB) id
  let s1 := runChildChunks s0 id chunks
  let s2 := if ClaudeOutputStreamer.isStreaming s1 id
            then ClaudeOutputStreamer.streamProcessExit s1 id 0 else s1
  let full := ClaudeOutputStreamer.getFullOutput s2 id
  if full.isEmpty then accumulate chunks else full

/-- The Claude options with an arbitrary `maxArgumentLength`. -/
def claudeOptsMax (M : Nat) : SanitizationOptions :=
  { claudeOptions with maxArgumentLength := M }

/-- A command with a shell metacharacter in its name, for the C2 witness. -/
def cmdSemi : ClaudeCommand :=
  { id := str "w2", command := str "echo;", args := [], workingDirectory := none,
    timeout := none, input := none }

/-- The benign command used throughout the manager traces. -/
def cmdP1 : ClaudeCommand :=
  { id := str "p1", command := str "echo", args := [str "hello"], workingDirectory := none,
    timeout := none, input := none }

/-- A manager state in which `p1` has already completed (terminal record). -/
def stCompleted : EnhancedClaudeManager :=
  mrun initManager
    [MEvent.start cmdP1, MEvent.childExit (str "p1") (some 0) none (str "hello") []]

/-- The trace that starts `p1` and then kills it: the record is `killed`. -/
def trKilled : List MEvent := [MEvent.start cmdP1, MEvent.kill (str "p1")]

/-- The child-exit callback that fires after the kill: the SIGTERM'd child
exits with a null code, rejecting the still-pending promise. -/
def evExitAfterKill : MEvent := MEvent.childExit (str "p1") none (some (str "SIGTERM")) [] []

/-- The reachability invariant behind the amended C1: a record that is already
`completed` or `failed` has no pending settlement left (its promise has
settled, removing it from `pending`). -/
def Inv (st : EnhancedClaudeManager) : Prop :=
  ∀ id p, mfind st.processes id = some p →
    (p.status = Status.completed ∨ p.status = Status.failed) → id ∉ st.pending

/-! ## Sanitizer invariants -/

/-- The validity invariant of a `SanitizationResult`: the flag agrees with
the emptiness of the violation list. -/
def SanOk (r : SanitizationResult) : Prop := r.isValid = r.violations.isEmpty

theorem isEmpty_append_singleton (l : List Str) (a : Str) : (l ++ [a]).isEmpty = false := by
  cases l <;> rfl

theorem sanOk_pushViolation (r : SanitizationResult) (m : Str) : SanOk (pushViolation r m) := by
  simp [SanOk, pushViolation, isEmpty_append_singleton]

theorem sanOk_pushWarning (r : SanitizationResult) (m : Str) (h : SanOk r) :
    SanOk (pushWarning r m) := h

theorem sanOk_ite_push {c : Prop} [Decidable c] (r : SanitizationResult) (m : Str)
    (h : SanOk r) : SanOk (if c then pushViolation r m else r) := by
  split
  · exact sanOk_pushViolation r m
  · exact h

theorem sanOk_ite_warn {c : Prop} [Decidable c] (r : SanitizationResult) (m : Str)
    (h : SanOk r) : SanOk (if c then pushWarning r m else r) := by
  split
  · exact sanOk_pushWarning r m h
  · exact h

theorem sanOk_foldl {β : Type} (f : SanitizationResult → β → SanitizationResult)
    (hf : ∀ r x, SanOk r → SanOk (f r x)) :
    ∀ (l : List β) (r : SanitizationResult), SanOk r → SanOk (l.foldl f r)
  | [], _, h => h
  | x :: t, r, h => sanOk_foldl f hf t (f r x) (hf r x h)

theorem sanOk_update (r : SanitizationResult) (x : Option Str) (h : SanOk r) :
    SanOk { r with sanitizedCommand := x } := h

theorem sanOk_validateCommandLength (command : Str) (r : SanitizationResult)
    (opts : SanitizationOptions) (h : SanOk r) : SanOk (validateCommandLength command r opts) := by
  unfold validateCommandLength
  dsimp only
  split
  · exact sanOk_pushViolation r _
  · exact sanOk_update _ _ (sanOk_ite_push r _ h)

theorem sanOk_validateCommandName (command : Str) (r : SanitizationResult)
    (opts : SanitizationOptions) (h : SanOk r) : SanOk (validateCommandName command r opts) := by
  unfold validateCommandName
  exact sanOk_foldl _ (fun r pat h => sanOk_ite_push r _ h) _ _
    (sanOk_ite_push _ _ (sanOk_ite_push r _ h))

theorem sanOk_validateArgumentCount (args : List Str) (r : SanitizationResult)
    (opts : SanitizationOptions) (h : SanOk r) : SanOk (validateArgumentCount args r opts) :=
  sanOk_ite_push r _ h

theorem sanOk_checkArg (opts : SanitizationOptions) (r : SanitizationResult)
    (ia : Nat × Str) (h : SanOk r) : SanOk (checkArg opts r ia) := by
  unfold checkArg
  exact sanOk_ite_push _ _ (sanOk_ite_push _ _ (sanOk_ite_push _ _
    (sanOk_ite_push _ _ (sanOk_ite_push _ _ (sanOk_ite_push r _ h)))))

theorem sanOk_validateArguments (args : List Str) (r : SanitizationResult)
    (opts : SanitizationOptions) (h : SanOk r) : SanOk (validateArguments args r opts) :=
  sanOk_foldl _ (fun r ia h => sanOk_checkArg opts r ia h) _ _ h

theorem sanOk_validateWorkingDirectory (wd : Option Str) (r : SanitizationResult)
    (opts : SanitizationOptions) (h : SanOk r) : SanOk (validateWorkingDirectory wd r opts) := by
  unfold validateWorkingDirectory
  match wd with
  | none => exact h
  | some w =>
    dsimp only
    split
    · exact sanOk_pushViolation r _
    · exact sanOk_ite_warn _ _ (sanOk_ite_push r _ h)

theorem sanOk_validateClaudeArguments (args : List Str) (r : SanitizationResult)
    (h : SanOk r) : SanOk (validateClaudeArguments args r) := by
  unfold validateClaudeArguments
  exact sanOk_foldl _ (fun r arg h => sanOk_ite_warn r _ h) _ _
    (sanOk_foldl _ (fun r arg h => sanOk_ite_warn r _ h) _ _ h)

theorem sanOk_validateDangerousOperations (command : Str) (args : List Str) (wd : Option Str)
    (r : SanitizationResult) (h : SanOk r) : SanOk (validateDangerousOperations command args wd r) := by
  unfold validateDangerousOperations
  dsimp only
  split
  · split
    · exact sanOk_pushViolation r _
    · exact h
  · exact h

theorem sanOk_checkApiKeyArg (r : SanitizationResult) (ia : Nat × Str) (h : SanOk r) :
    SanOk (checkApiKeyArg r ia) := by
  unfold checkApiKeyArg
  exact sanOk_ite_warn _ _ (sanOk_ite_push _ _ (sanOk_ite_push r _ h))

theorem sanOk_validateApiKeySafety (args : List Str) (r : SanitizationResult) (h : SanOk r) :
    SanOk (validateApiKeySafety args r) :=
  sanOk_foldl _ sanOk_checkApiKeyArg _ _ h

theorem sanOk_checkPromptArg (r : SanitizationResult) (ia : Nat × Str) (h : SanOk r) :
    SanOk (checkPromptArg r ia) := by
  unfold checkPromptArg
  exact sanOk_ite_warn _ _
    (sanOk_foldl _ (fun r b h => sanOk_ite_warn r _ h) _ _ h)

theorem sanOk_validatePromptSafety (args : List Str) (r : SanitizationResult) (h : SanOk r) :
    SanOk (validatePromptSafety args r) :=
  sanOk_foldl _ sanOk_checkPromptArg _ _ h

theorem sanOk_performClaudeSpecificValidations (command : Str) (args : List Str)
    (wd : Option Str) (r : SanitizationResult) (h : SanOk r) :
    SanOk (performClaudeSpecificValidations command args wd r) := by
  unfold performClaudeSpecificValidations
  refine sanOk_validatePromptSafety _ _ (sanOk_validateApiKeySafety _ _
    (sanOk_validateDangerousOperations _ _ _ _ ?_))
  split
  · exact sanOk_validateClaudeArguments _ _ h
  · exact h

theorem sanOk_sanitizeCommand (command : Str) (args : List Str) (wd : Option Str)
    (opts : SanitizationOptions) : SanOk (sanitizeCommand command args wd opts) := by
  unfold sanitizeCommand
  exact sanOk_performClaudeSpecificValidations _ _ _ _
    (sanOk_validateWorkingDirectory _ _ _
      (sanOk_validateArguments _ _ _
        (sanOk_validateArgumentCount _ _ _
          (sanOk_validateCommandName _ _ _
            (sanOk_validateCommandLength _ _ _ rfl)))))

/-! ### Violation lists only ever grow -/

theorem violExt_ite_push {c : Prop} [Decidable c] (r : SanitizationResult) (m : Str) :
    ∃ t, (if c then pushViolation r m else r).violations = r.violations ++ t := by
  split
  · exact ⟨[m], rfl⟩
  · exact ⟨[], (List.append_nil _).symm⟩

theorem violations_ite_warn {c : Prop} [Decidable c] (r : SanitizationResult) (m : Str) :
    (if c then pushWarning r m else r).violations = r.violations := by
  split <;> rfl

theorem violExt_foldl {β : Type} (f : SanitizationResult → β → SanitizationResult)
    (hf : ∀ r x, ∃ t, (f r x).violations = r.violations ++ t) :
    ∀ (l : List β) (r : SanitizationResult), ∃ t, (l.foldl f r).violations = r.violations ++ t
  | [], r => ⟨[], (List.append_nil _).symm⟩
  | x :: l, r => by
    obtain ⟨t1, h1⟩ := hf r x
    obtain ⟨t2, h2⟩ := violExt_foldl f hf l (f r x)
    exact ⟨t1 ++ t2, by simp [h2, h1]⟩

theorem violEq_foldl {β : Type} (f : SanitizationResult → β → SanitizationResult)
    (hf : ∀ r x, (f r x).violations = r.violations) :
    ∀ (l : List β) (r : SanitizationResult), (l.foldl f r).violations = r.violations
  | [], _ => rfl
  | x :: l, r => by rw [List.foldl_cons, violEq_foldl f hf l (f r x), hf r x]

theorem violExt_trans {r1 r2 r3 : SanitizationResult}
    (h12 : ∃ t, r2.violations = r1.violations ++ t)
    (h23 : ∃ t, r3.violations = r2.violations ++ t) :
    ∃ t, r3.violations = r1.violations ++ t := by
  obtain ⟨t1, h1⟩ := h12
  obtain ⟨t2, h2⟩ := h23
  exact ⟨t1 ++ t2, by rw [h2, h1, List.append_assoc]⟩

theorem violExt_checkApiKeyArg (r : SanitizationResult) (ia : Nat × Str) :
    ∃ t, (checkApiKeyArg r ia).violations = r.violations ++ t := by
  unfold checkApiKeyArg
  dsimp only
  rw [violations_ite_warn]
  exact violExt_trans (violExt_ite_push _ _) (violExt_ite_push _ _)

theorem violExt_validateApiKeySafety (args : List Str) (r : SanitizationResult) :
    ∃ t, (validateApiKeySafety args r).violations = r.violations ++ t :=
  violExt_foldl _ violExt_checkApiKeyArg _ r

theorem violations_checkPromptArg (r : SanitizationResult) (ia : Nat × Str) :
    (checkPromptArg r ia).violations = r.violations := by
  unfold checkPromptArg
  dsimp only
  rw [violations_ite_warn]
  exact violEq_foldl _ (fun r b => violations_ite_warn r _) _ r

theorem violations_validatePromptSafety (args : List Str) (r : SanitizationResult) :
    (validatePromptSafety args r).violations = r.violations :=
  violEq_foldl _ violations_checkPromptArg _ r

theorem violations_validateClaudeArguments (args : List Str) (r : SanitizationResult) :
    (validateClaudeArguments args r).violations = r.violations := by
  unfold validateClaudeArguments
  dsimp only
  rw [violEq_foldl _ (fun r arg => violations_ite_warn r _) _ _,
      violEq_foldl _ (fun r arg => violations_ite_warn r _) _ r]

/-- Under the guards of `validateDangerousOperations` (a dangerous command
name and a sensitive argument), the check records its violation. -/
theorem validateDangerousOperations_fires (command : Str) (args : List Str) (wd : Option Str)
    (r : SanitizationResult)
    (hcmd : dangerousCommands.any (fun d => decide (d = lowerStr command)) = true)
    (harg : args.any (fun a => sensitiveArgFragments.any (fun f => containsSub a f)) = true) :
    validateDangerousOperations command args wd r =
      pushViolation r (str "Attempted dangerous file operation on sensitive system directory") := by
  unfold validateDangerousOperations
  dsimp only
  rw [if_pos hcmd, harg]
  rw [if_pos (by simp)]

/-- With the dangerous-operation guards true, `performClaudeSpecificValidations`
leaves a nonempty violation list, whatever the incoming result. -/
theorem perform_viol_ne (command : Str) (args : List Str) (wd : Option Str)
    (r : SanitizationResult)
    (hcmd : dangerousCommands.any (fun d => decide (d = lowerStr command)) = true)
    (harg : args.any (fun a => sensitiveArgFragments.any (fun f => containsSub a f)) = true) :
    (performClaudeSpecificValidations command args wd r).violations ≠ [] := by
  unfold performClaudeSpecificValidations
  dsimp only
  rw [violations_validatePromptSafety]
  obtain ⟨t, ht⟩ := violExt_validateApiKeySafety args
    (validateDangerousOperations command args wd
      (if command = str "claude" then validateClaudeArguments args r else r))
  rw [ht, validateDangerousOperations_fires command args wd _ hcmd harg]
  simp [pushViolation]

/-- With the dangerous-operation guards true, the whole verdict has a
nonempty violation list. -/
theorem sanitize_invalid_of_dangerous (command : Str) (args : List Str) (wd : Option Str)
    (hcmd : dangerousCommands.any (fun d => decide (d = lowerStr command)) = true)
    (harg : args.any (fun a => sensitiveArgFragments.any (fun f => containsSub a f)) = true) :
    (sanitizeCommand command args wd claudeOptions).violations ≠ [] := by
  unfold sanitizeCommand
  dsimp only
  exact perform_viol_ne command args wd _ hcmd harg

theorem isValid_false_of_violations_ne (r : SanitizationResult) (hOk : SanOk r)
    (h : r.violations ≠ []) : r.isValid = false := by
  obtain ⟨a, t, hat⟩ := List.exists_cons_of_ne_nil h
  unfold SanOk at hOk
  rw [hOk, hat]
  rfl

/-! ## Claims about the sanitizer -/

/-- Claim C3 (confirmed): for every command, argument list, working directory
and policy-option set, the verdict's `isValid` flag is `true` exactly when its
violations list is empty.  Since `isValid` is thereby a function of the
violations list alone, the content of the warnings list never affects it. -/
theorem claim_C3 (command : Str) (args : List Str) (wd : Option Str)
    (opts : SanitizationOptions) :
    (sanitizeCommand command args wd opts).isValid =
      (sanitizeCommand command args wd opts).violations.isEmpty :=
  sanOk_sanitizeCommand command args wd opts

/-- Counterexample to claim C4: the invocation of the manager's sanitizer on
the command `claude` with the single argument `rm -rf /etc` — an invocation
in which some argument is exactly the string `rm -rf /etc` — yields a VALID
verdict with no violations, so the claimed rejection does not happen.  (The
dangerous-operation check only fires when the command itself is one of
`rm`/`del`/`delete`/`format`/`mkfs`/`dd`, and the sensitive-path scan looks
for fragments with a trailing slash such as `/etc/`, which `rm -rf /etc`
does not contain.) -/
theorem claim_C4_counterexample :
    (sanitizeClaudeCommand (str "claude") [str "rm -rf /etc"] none).isValid = true
    ∧ (sanitizeClaudeCommand (str "claude") [str "rm -rf /etc"] none).violations = [] := by
  constructor <;> decide

/-- Claim C4 (amended): a command invocation is rejected by the
dangerous-operation check exactly under the code's guards: the command itself
(lowercased) must be one of the dangerous file-management commands and some
argument must contain a sensitive directory fragment with a trailing slash
(`/etc/`, `/root/`, `/sys/`, `/boot/`, `/dev/`).  An argument that is merely
the string `rm -rf /etc` triggers no rejection. -/
theorem claim_C4 (command : Str) (args : List Str) (wd : Option Str)
    (hcmd : dangerousCommands.any (fun d => decide (d = lowerStr command)) = true)
    (harg : args.any (fun a => sensitiveArgFragments.any (fun f => containsSub a f)) = true) :
    (sanitizeClaudeCommand command args wd).isValid = false :=
  isValid_false_of_violations_ne _ (sanOk_sanitizeCommand command args wd claudeOptions)
    (sanitize_invalid_of_dangerous command args wd hcmd harg)

/-- Witness for claim C4 at the concrete invocation `rm -rf /etc/passwd`. -/
theorem claim_C4_witness :
    dangerousCommands.any (fun d => decide (d = lowerStr (str "rm"))) = true
    ∧ List.any [str "-rf", str "/etc/passwd"]
        (fun a => sensitiveArgFragments.any (fun f => containsSub a f)) = true
    ∧ (sanitizeClaudeCommand (str "rm") [str "-rf", str "/etc/passwd"] none).isValid = false :=
  ⟨by decide, by decide,
    claim_C4 (str "rm") [str "-rf", str "/etc/passwd"] none (by decide) (by decide)⟩

/-! ## The length boundary (claim C9)

The boundary is exercised with the benign command `echo` and an argument
consisting of `n` letters `a`, for every bound `M` and every `n`: all checks
other than the length check are shown not to fire on such an argument. -/

theorem any_replicate_false (p : Char → Bool) (c : Char) (h : p c = false) :
    ∀ n, (List.replicate n c).any p = false
  | 0 => rfl
  | n + 1 => by
    rw [List.replicate_succ, List.any_cons, h, any_replicate_false p c h n]
    rfl

theorem prefixOf_cons_replicate (c0 : Char) (p' : Str) (c : Char) (h : c0 ≠ c) :
    ∀ n, prefixOf (c0 :: p') (List.replicate n c) = false
  | 0 => rfl
  | n + 1 => by
    rw [List.replicate_succ]
    show (decide (c0 = c) && prefixOf p' (List.replicate n c)) = false
    rw [decide_eq_false h]
    rfl

theorem containsSub_replicate_false (c0 : Char) (p' : Str) (c : Char) (h : c0 ≠ c) :
    ∀ n, containsSub (List.replicate n c) (c0 :: p') = false
  | 0 => rfl
  | n + 1 => by
    rw [List.replicate_succ]
    show (prefixOf (c0 :: p') (c :: List.replicate n c) || _) = false
    rw [← List.replicate_succ, prefixOf_cons_replicate c0 p' c h (n + 1),
        containsSub_replicate_false c0 p' c h n]
    rfl

theorem anySuffix_replicate_false (p : Str → Bool) (c : Char)
    (h : ∀ k, p (List.replicate k c) = false) :
    ∀ n, anySuffix p (List.replicate n c) = false
  | 0 => h 0
  | n + 1 => by
    rw [List.replicate_succ]
    show (p (c :: List.replicate n c) || anySuffix p (List.replicate n c)) = false
    rw [← List.replicate_succ, h (n + 1), anySuffix_replicate_false p c h n]
    rfl

theorem meta_repl (n : Nat) : hasMetaChar argMetaCodes (List.replicate n 'a') = false :=
  any_replicate_false _ 'a' (by decide) n

theorem dots_repl (n : Nat) : containsSub (List.replicate n 'a') (str "..") = false :=
  containsSub_replicate_false '.' ['.'] 'a' (by decide) n

theorem binary_repl (n : Nat) : binaryTest (List.replicate n 'a') = false :=
  any_replicate_false _ 'a' (by decide) n

theorem skAnt_repl (n : Nat) : containsSub (List.replicate n 'a') skAntCore = false :=
  containsSub_replicate_false 's' (str "k-ant-") 'a' (by decide) n

theorem skAntPattern_repl (n : Nat) : skAntPatternTest (List.replicate n 'a') = false := by
  refine anySuffix_replicate_false _ 'a' (fun k => ?_) n
  rw [show skAntCore = 's' :: str "k-ant-" from rfl,
      prefixOf_cons_replicate 's' (str "k-ant-") 'a' (by decide) k]
  rfl

theorem anthropicKey_repl (n : Nat) :
    containsSub (List.replicate n 'a') (str "ANTHROPIC_API_KEY") = false :=
  containsSub_replicate_false 'A' (str "NTHROPIC_API_KEY") 'a' (by decide) n

theorem claudeOptsMax_maxArg (M : Nat) : (claudeOptsMax M).maxArgumentLength = M := rfl

theorem claudeOptsMax_shellMeta (M : Nat) : (claudeOptsMax M).allowShellMetacharacters = false := rfl

theorem claudeOptsMax_network (M : Nat) : (claudeOptsMax M).allowNetworkAccess = true := rfl

theorem claudeOptsMax_env (M : Nat) : (claudeOptsMax M).allowEnvironmentVariables = true := rfl

theorem apiKey_repl_violations (n : Nat) (r : SanitizationResult) :
    (validateApiKeySafety [List.replicate n 'a'] r).violations = r.violations := by
  unfold validateApiKeySafety
  show (checkApiKeyArg r (0, List.replicate n 'a')).violations = r.violations
  unfold checkApiKeyArg
  dsimp only
  rw [violations_ite_warn, skAnt_repl n, skAntPattern_repl n, anthropicKey_repl n]
  simp

theorem dangerous_echo (args : List Str) (wd : Option Str) (r : SanitizationResult) :
    validateDangerousOperations (str "echo") args wd r = r := by
  unfold validateDangerousOperations
  dsimp only
  have h : (dangerousCommands.any fun d => decide (d = lowerStr (str "echo"))) = false := by decide
  rw [h]
  simp

theorem wd_none (r : SanitizationResult) (opts : SanitizationOptions) :
    validateWorkingDirectory none r opts = r := rfl

theorem claudeOptsMax_maxCount (M : Nat) : (claudeOptsMax M).maxArgumentCount = 50 := rfl

theorem argCount_one (x : Str) (r : SanitizationResult) (M : Nat) :
    validateArgumentCount [x] r (claudeOptsMax M) = r := by
  unfold validateArgumentCount
  exact if_neg (by rw [show ([x] : List Str).length = 1 from rfl, claudeOptsMax_maxCount]; omega)

theorem cmdLength_echo (r : SanitizationResult) (M : Nat) :
    validateCommandLength (str "echo") r (claudeOptsMax M)
      = { r with sanitizedCommand := some (str "echo") } := rfl

theorem cmdName_echo (r : SanitizationResult) (M : Nat) :
    validateCommandName (str "echo") r (claudeOptsMax M) = r := rfl

theorem validateArguments_repl (M n : Nat) (r : SanitizationResult) :
    validateArguments [List.replicate n 'a'] r (claudeOptsMax M)
      = if n > M then pushViolation r (argTooLongMsg 0 n M) else r := by
  unfold validateArguments
  show checkArg (claudeOptsMax M) r (0, List.replicate n 'a') = _
  unfold checkArg
  dsimp only
  simp only [claudeOptsMax_maxArg, claudeOptsMax_shellMeta, claudeOptsMax_network,
    claudeOptsMax_env, List.length_replicate, meta_repl, dots_repl, binary_repl,
    Bool.not_false, Bool.not_true, Bool.true_and, Bool.false_and, Bool.false_eq_true,
    if_false]

/-- The full verdict on `echo aᶰ` under the bound `M`: exactly the length
violation when `n > M`, nothing otherwise. -/
theorem c9_violations (M n : Nat) :
    (sanitizeCommand (str "echo") [List.replicate n 'a'] none (claudeOptsMax M)).violations
      = if n > M then [argTooLongMsg 0 n M] else [] := by
  unfold sanitizeCommand performClaudeSpecificValidations
  dsimp only
  rw [violations_validatePromptSafety, apiKey_repl_violations, dangerous_echo,
      if_neg (show ¬ (str "echo" = str "claude") by decide), wd_none,
      validateArguments_repl, argCount_one, cmdName_echo, cmdLength_echo]
  split <;> simp [pushViolation]

/-- Claim C9 (confirmed): for every bound `M`, an argument of exactly `M`
characters produces no violation (the verdict is valid at the boundary), while
an argument of `M + 1` characters produces exactly the length violation and an
invalid verdict. -/
theorem claim_C9 (M : Nat) :
    (sanitizeCommand (str "echo") [List.replicate M 'a'] none (claudeOptsMax M)).violations = []
    ∧ (sanitizeCommand (str "echo") [List.replicate M 'a'] none (claudeOptsMax M)).isValid = true
    ∧ (sanitizeCommand (str "echo") [List.replicate (M + 1) 'a'] none (claudeOptsMax M)).violations
        = [argTooLongMsg 0 (M + 1) M]
    ∧ (sanitizeCommand (str "echo") [List.replicate (M + 1) 'a'] none (claudeOptsMax M)).isValid = false := by
  have h1 := c9_violations M M
  have h2 := c9_violations M (M + 1)
  rw [if_neg (Nat.lt_irrefl M)] at h1
  rw [if_pos (Nat.lt_succ_self M)] at h2
  have o1 := sanOk_sanitizeCommand (str "echo") [List.replicate M 'a'] none (claudeOptsMax M)
  have o2 := sanOk_sanitizeCommand (str "echo") [List.replicate (M + 1) 'a'] none (claudeOptsMax M)
  unfold SanOk at o1 o2
  rw [h1] at o1
  rw [h2] at o2
  exact ⟨h1, by rw [o1]; rfl, h2, by rw [o2]; rfl⟩

/-! ## Claims about executeCommand rejections (C2, C6) -/

/-- Claim C2 (confirmed): with the manager not shutting down, a command whose
sanitization verdict has at least one violation makes `executeCommand` fail
with the sanitization error carrying exactly that violation list, and leaves
the manager state untouched — no spawn (`spawnCount` unchanged) and no process
record.  Conversely, when the violation list is empty (warnings alone, at
most), the sanitization error is never raised. -/
theorem claim_C2 (st : EnhancedClaudeManager) (cmd : ClaudeCommand)
    (h1 : st.isShuttingDown = false) :
    ((sanitizeClaudeCommand cmd.command cmd.args cmd.workingDirectory).violations ≠ [] →
      execStart st cmd =
        (ExecStartResult.sanitizationError
          (sanitizeClaudeCommand cmd.command cmd.args cmd.workingDirectory).violations, st))
    ∧ ((sanitizeClaudeCommand cmd.command cmd.args cmd.workingDirectory).violations = [] →
      ∀ vs, (execStart st cmd).1 ≠ ExecStartResult.sanitizationError vs) := by
  have hOk : (sanitizeClaudeCommand cmd.command cmd.args cmd.workingDirectory).isValid
      = (sanitizeClaudeCommand cmd.command cmd.args cmd.workingDirectory).violations.isEmpty :=
    sanOk_sanitizeCommand cmd.command cmd.args cmd.workingDirectory claudeOptions
  constructor
  · intro hv
    have hiv : (sanitizeClaudeCommand cmd.command cmd.args cmd.workingDirectory).isValid = false :=
      isValid_false_of_violations_ne _ hOk hv
    unfold execStart
    rw [if_neg (by rw [h1]; exact Bool.false_ne_true)]
    dsimp only
    rw [if_pos (by rw [hiv]; rfl)]
  · intro hv vs
    have hval : (sanitizeClaudeCommand cmd.command cmd.args cmd.workingDirectory).isValid = true := by
      rw [hOk, hv]
      rfl
    unfold execStart
    rw [if_neg (by rw [h1]; exact Bool.false_ne_true)]
    dsimp only
    rw [if_neg (by rw [hval]; exact Bool.false_ne_true)]
    split <;> simp

/-- Witness for claim C2: the command name `echo;` fails sanitization and the
manager state (spawn count included) is returned unchanged. -/
theorem claim_C2_witness :
    initManager.isShuttingDown = false
    ∧ (sanitizeClaudeCommand cmdSemi.command cmdSemi.args cmdSemi.workingDirectory).violations ≠ []
    ∧ execStart initManager cmdSemi =
        (ExecStartResult.sanitizationError
          (sanitizeClaudeCommand cmdSemi.command cmdSemi.args cmdSemi.workingDirectory).violations,
         initManager) :=
  ⟨rfl, by decide, (claim_C2 initManager cmdSemi rfl).1 (by decide)⟩

/-- Counterexample to claim C6: reusing the id of a record that has already
reached the terminal status `completed` IS rejected as a duplicate — the code
checks `this.processes.has(command.id)` with no status test, and terminal
records stay in the map. -/
theorem claim_C6_counterexample :
    statusOf stCompleted (str "p1") = some Status.completed
    ∧ (execStart stCompleted cmdP1).1 = ExecStartResult.duplicateIdError := by
  constructor <;> decide

/-- Claim C6 (amended): with the manager accepting work and the command
passing sanitization, `executeCommand` rejects with the duplicate-id error
exactly when the id is already tracked — whether or not that record is
terminal. -/
theorem claim_C6 (st : EnhancedClaudeManager) (cmd : ClaudeCommand)
    (h1 : st.isShuttingDown = false)
    (h2 : (sanitizeClaudeCommand cmd.command cmd.args cmd.workingDirectory).isValid = true) :
    ((execStart st cmd).1 = ExecStartResult.duplicateIdError)
      ↔ (mfind st.processes cmd.id).isSome = true := by
  unfold execStart
  rw [if_neg (by rw [h1]; exact Bool.false_ne_true)]
  dsimp only
  rw [if_neg (by rw [h2]; exact Bool.false_ne_true)]
  split
  · next h => simp [h]
  · next h => simp [h]

/-- Witness for claim C6 at the completed-record state. -/
theorem claim_C6_witness :
    stCompleted.isShuttingDown = false
    ∧ (sanitizeClaudeCommand cmdP1.command cmdP1.args cmdP1.workingDirectory).isValid = true
    ∧ (((execStart stCompleted cmdP1).1 = ExecStartResult.duplicateIdError)
        ↔ (mfind stCompleted.processes cmdP1.id).isSome = true) :=
  ⟨by decide, by decide, claim_C6 stCompleted cmdP1 (by decide) (by decide)⟩

/-! ## Map lemmas -/

theorem mfind_mput_self {α : Type} : ∀ (m : List (Str × α)) (k : Str) (v : α),
    mfind (mput m k v) k = some v
  | [], k, v => by simp [mput, mfind]
  | (k1, v1) :: t, k, v => by
    by_cases h : k1 = k
    · simp [mput, h, mfind]
    · simp [mput, h, mfind, mfind_mput_self t k v]

theorem mfind_mput_ne {α : Type} : ∀ (m : List (Str × α)) (k : Str) (v : α) (k1 : Str),
    k1 ≠ k → mfind (mput m k v) k1 = mfind m k1
  | [], k, v, k1, h => by
    have hne : ¬ (k = k1) := fun hh => h hh.symm
    simp [mput, mfind, hne]
  | (k2, v2) :: t, k, v, k1, h => by
    by_cases h2 : k2 = k
    · subst h2
      have hne : ¬ (k2 = k1) := fun hh => h hh.symm
      simp [mput, mfind, hne]
    · by_cases h1 : k2 = k1
      · subst h1
        simp [mput, mfind, h2]
      · have ih := mfind_mput_ne t k v k1 h
        simp [mput, mfind, h2, h1, ih]

/-! ## Exit codes (claim C10) -/

/-- Settling with an error marks the record `failed` with `exitCode = 1`. -/
theorem exitCode_settle_error (st : EnhancedClaudeManager) (id : Str) (m : Str)
    (p : ClaudeProcess) (hp : id ∈ st.pending) (hr : mfind st.processes id = some p) :
    exitCodeOf (settle st id (Except.error m)) id = some 1 := by
  unfold settle
  rw [if_pos hp, hr]
  dsimp only
  unfold exitCodeOf
  rw [mfind_mput_self]

/-- Counterexample to claim C10: when the child of `p1` exits with code 1, the
record's `exitCode` is set to 1 — which IS the child's true nonzero exit code,
so `getProcess(id).exitCode` does report the child's true nonzero code in this
case, contradicting the claim's final clause. -/
theorem claim_C10_counterexample :
    exitCodeOf
      (mrun initManager
        [MEvent.start cmdP1, MEvent.childExit (str "p1") (some 1) none [] (str "boom")])
      (str "p1") = some 1 := by
  decide

/-- Claim C10 (amended): every failing settlement — child exit with any
nonzero (or null) code, spawn error, or timeout — sets the record's
`exitCode` to the constant 1, and `killProcess` sets it to -1; hence the
child's actual exit code `n` is reported only in the coincidental case
`n = 1`, and for every `n ∉ {0, 1}` the true code is lost. -/
theorem claim_C10 (st : EnhancedClaudeManager) (id : Str) (p : ClaudeProcess)
    (code : Option Int) (sg : Option Str) (o e m : Str) (t : Nat)
    (hp : id ∈ st.pending) (hr : mfind st.processes id = some p)
    (hc : code ≠ some 0) (hrun : p.status = Status.running) :
    exitCodeOf (childExitStep st id code sg o e) id = some 1
    ∧ exitCodeOf (childErrorStep st id m) id = some 1
    ∧ exitCodeOf (timeoutStep st id t) id = some 1
    ∧ exitCodeOf (killProcess st id).2 id = some (-1) := by
  refine ⟨?_, ?_, ?_, ?_⟩
  · unfold childExitStep
    rw [if_neg hc]
    split
    · exact exitCode_settle_error _ _ _ p hp hr
    · exact exitCode_settle_error _ _ _ p hp hr
  · unfold childErrorStep
    split
    · exact exitCode_settle_error _ _ _ p hp hr
    · exact exitCode_settle_error _ _ _ p hp hr
  · exact exitCode_settle_error _ _ _ p hp hr
  · unfold killProcess
    rw [hr]
    dsimp only
    rw [if_neg (by rw [hrun]; exact fun hne => hne rfl)]
    split
    · unfold exitCodeOf
      rw [mfind_mput_self]
    · unfold exitCodeOf
      rw [mfind_mput_self]

/-! ## Characterizations of the manager steps (for claim C1) -/

theorem settle_not_pending (st : EnhancedClaudeManager) (id : Str) (outcome : Except Str Str)
    (hp : id ∉ st.pending) : settle st id outcome = st := by
  unfold settle
  rw [if_neg hp]

theorem settle_none (st : EnhancedClaudeManager) (id : Str) (outcome : Except Str Str)
    (hp : id ∈ st.pending) (hfind : mfind st.processes id = none) :
    settle st id outcome =
      { st with childProcesses := st.childProcesses.filter (fun q => decide (q ≠ id)),
                pending := st.pending.filter (fun q => decide (q ≠ id)) } := by
  unfold settle
  rw [if_pos hp, hfind]

theorem settle_eq_ok (st : EnhancedClaudeManager) (id : Str) (o : Str)
    (hp : id ∈ st.pending) (p : ClaudeProcess) (hfind : mfind st.processes id = some p) :
    settle st id (Except.ok o) =
      { st with processes := mput st.processes id
                  { p with status := Status.completed, exitCode := some 0 },
                childProcesses := st.childProcesses.filter (fun q => decide (q ≠ id)),
                pending := st.pending.filter (fun q => decide (q ≠ id)) } := by
  unfold settle
  rw [if_pos hp, hfind]

theorem settle_eq_error (st : EnhancedClaudeManager) (id : Str) (m : Str)
    (hp : id ∈ st.pending) (p : ClaudeProcess) (hfind : mfind st.processes id = some p) :
    settle st id (Except.error m) =
      { st with processes := mput st.processes id
                  { p with status := Status.failed, error := some m, exitCode := some 1 },
                childProcesses := st.childProcesses.filter (fun q => decide (q ≠ id)),
                pending := st.pending.filter (fun q => decide (q ≠ id)) } := by
  unfold settle
  rw [if_pos hp, hfind]

theorem chunkStep_processes (st : EnhancedClaudeManager) (id : Str) (src : ChunkSrc) (d : Str) :
    (chunkStep st id src d).processes = st.processes := by
  unfold chunkStep
  split <;> rfl

theorem chunkStep_pending (st : EnhancedClaudeManager) (id : Str) (src : ChunkSrc) (d : Str) :
    (chunkStep st id src d).pending = st.pending := by
  unfold chunkStep
  split <;> rfl

theorem childExitStep_as_settle (st : EnhancedClaudeManager) (id : Str) (code : Option Int)
    (sg : Option Str) (o e : Str) :
    ∃ (st1 : EnhancedClaudeManager) (outcome : Except Str Str),
      st1.processes = st.processes ∧ st1.pending = st.pending ∧
      childExitStep st id code sg o e = settle st1 id outcome := by
  unfold childExitStep
  dsimp only
  refine ⟨_, _, ?_, ?_, rfl⟩ <;> split <;> rfl

theorem childErrorStep_as_settle (st : EnhancedClaudeManager) (id : Str) (m : Str) :
    ∃ (st1 : EnhancedClaudeManager) (outcome : Except Str Str),
      st1.processes = st.processes ∧ st1.pending = st.pending ∧
      childErrorStep st id m = settle st1 id outcome := by
  unfold childErrorStep
  dsimp only
  refine ⟨_, _, ?_, ?_, rfl⟩ <;> split <;> rfl

theorem timeoutStep_as_settle (st : EnhancedClaudeManager) (id : Str) (t : Nat) :
    ∃ (outcome : Except Str Str), timeoutStep st id t = settle st id outcome :=
  ⟨_, rfl⟩

theorem kill_none (st : EnhancedClaudeManager) (id : Str)
    (hfind : mfind st.processes id = none) : (killProcess st id).2 = st := by
  unfold killProcess
  rw [hfind]

theorem kill_not_running (st : EnhancedClaudeManager) (id : Str) (p : ClaudeProcess)
    (hfind : mfind st.processes id = some p) (hst : p.status ≠ Status.running) :
    (killProcess st id).2 = st := by
  unfold killProcess
  rw [hfind]
  dsimp only
  rw [if_pos hst]

theorem kill_running (st : EnhancedClaudeManager) (id : Str) (p : ClaudeProcess)
    (hfind : mfind st.processes id = some p) (hst : p.status = Status.running) :
    ∃ st1 : EnhancedClaudeManager, st1.processes = st.processes ∧ st1.pending = st.pending ∧
      (killProcess st id).2 =
        { st1 with processes := mput st1.processes id
                    { p with status := Status.killed, exitCode := some (-1),
                             error := some (str "Process killed by user") },
                   outputStreamer := ClaudeOutputStreamer.stopStreaming st1.outputStreamer id } := by
  unfold killProcess
  rw [hfind]
  dsimp only
  rw [if_neg (by rw [hst]; exact fun hne => hne rfl)]
  refine ⟨_, ?_, ?_, rfl⟩ <;> split <;> rfl

theorem shutdownStep_cases (st : EnhancedClaudeManager) :
    shutdownStep st = st ∨ (shutdownStep st).processes = [] := by
  unfold shutdownStep
  split
  · exact Or.inl rfl
  · exact Or.inr rfl

/-! ## The pending-settlement invariant and claim C1 -/

theorem inv_initManager : Inv initManager := by
  intro id p hf
  exact absurd hf (by simp [initManager, mfind])

theorem inv_execStart (st : EnhancedClaudeManager) (cmd : ClaudeCommand) (h : Inv st) :
    Inv (execStart st cmd).2 := by
  unfold execStart
  dsimp only
  split
  · exact h
  · split
    · exact h
    · split
      · exact h
      · next hdup =>
        intro id p hf hterm hmem
        by_cases hid : id = cmd.id
        · subst hid
          rw [mfind_mput_self] at hf
          have hp := Option.some.inj hf
          rcases hterm with h1 | h1 <;> rw [← hp] at h1 <;> exact Status.noConfusion h1
        · rw [mfind_mput_ne _ _ _ _ hid] at hf
          rcases List.mem_append.mp hmem with hm | hm
          · exact h id p hf hterm hm
          · exact hid (List.mem_singleton.mp hm)

theorem mem_of_mem_filter_ne {l : List Str} {id1 id : Str}
    (h : id1 ∈ l.filter (fun q => decide (q ≠ id))) : id1 ∈ l ∧ id1 ≠ id := by
  have h1 := List.mem_filter.mp h
  exact ⟨h1.1, by simpa using h1.2⟩

theorem inv_settle (st : EnhancedClaudeManager) (id : Str) (outcome : Except Str Str)
    (h : Inv st) : Inv (settle st id outcome) := by
  by_cases hp : id ∈ st.pending
  · rcases hfind : mfind st.processes id with - | p
    · rw [settle_none st id outcome hp hfind]
      intro id1 p1 hf hterm hmem
      exact h id1 p1 hf hterm (mem_of_mem_filter_ne hmem).1
    · cases outcome with
      | ok o =>
        rw [settle_eq_ok st id o hp p hfind]
        intro id1 p1 hf hterm hmem
        obtain ⟨hmem1, hne⟩ := mem_of_mem_filter_ne hmem
        rw [mfind_mput_ne _ _ _ _ hne] at hf
        exact h id1 p1 hf hterm hmem1
      | error m =>
        rw [settle_eq_error st id m hp p hfind]
        intro id1 p1 hf hterm hmem
        obtain ⟨hmem1, hne⟩ := mem_of_mem_filter_ne hmem
        rw [mfind_mput_ne _ _ _ _ hne] at hf
        exact h id1 p1 hf hterm hmem1
  · rw [settle_not_pending st id outcome hp]
    exact h

theorem inv_of_processes_pending_eq (st st1 : EnhancedClaudeManager)
    (hproc : st1.processes = st.processes) (hpend : st1.pending = st.pending)
    (h : Inv st) : Inv st1 := by
  intro id p hf hterm
  rw [hproc] at hf
  rw [hpend]
  exact h id p hf hterm

theorem inv_kill (st : EnhancedClaudeManager) (id : Str) (h : Inv st) :
    Inv (killProcess st id).2 := by
  rcases hfind : mfind st.processes id with - | p
  · rw [kill_none st id hfind]
    exact h
  · by_cases hst : p.status = Status.running
    · obtain ⟨st1, hproc, hpend, heq⟩ := kill_running st id p hfind hst
      rw [heq]
      intro id1 p1 hf hterm hmem
      by_cases hid : id1 = id
      · subst hid
        rw [mfind_mput_self] at hf
        have hp := Option.some.inj hf
        rcases hterm with h1 | h1 <;> rw [← hp] at h1 <;> exact Status.noConfusion h1
      · rw [mfind_mput_ne _ _ _ _ hid, hproc] at hf
        rw [hpend] at hmem
        exact h id1 p1 hf hterm hmem
    · rw [kill_not_running st id p hfind hst]
      exact h

theorem inv_shutdown (st : EnhancedClaudeManager) (h : Inv st) : Inv (shutdownStep st) := by
  rcases shutdownStep_cases st with heq | heq
  · rw [heq]
    exact h
  · intro id p hf
    rw [heq] at hf
    exact absurd hf (by simp [mfind])

theorem inv_mstep (st : EnhancedClaudeManager) (ev : MEvent) (h : Inv st) :
    Inv (mstep st ev) := by
  cases ev with
  | start cmd => exact inv_execStart st cmd h
  | chunk id src d =>
    exact inv_of_processes_pending_eq st _ (chunkStep_processes st id src d)
      (chunkStep_pending st id src d) h
  | childExit id c sg o e =>
    obtain ⟨st1, outcome, hproc, hpend, heq⟩ := childExitStep_as_settle st id c sg o e
    show Inv (childExitStep st id c sg o e)
    rw [heq]
    exact inv_settle st1 id outcome (inv_of_processes_pending_eq st st1 hproc hpend h)
  | childError id m =>
    obtain ⟨st1, outcome, hproc, hpend, heq⟩ := childErrorStep_as_settle st id m
    show Inv (childErrorStep st id m)
    rw [heq]
    exact inv_settle st1 id outcome (inv_of_processes_pending_eq st st1 hproc hpend h)
  | timeoutFire id t =>
    obtain ⟨outcome, heq⟩ := timeoutStep_as_settle st id t
    show Inv (timeoutStep st id t)
    rw [heq]
    exact inv_settle st id outcome h
  | kill id => exact inv_kill st id h
  | shutdownEvent => exact inv_shutdown st h

theorem inv_mrun : ∀ (evs : List MEvent) (st : EnhancedClaudeManager), Inv st → Inv (mrun st evs)
  | [], _, h => h
  | ev :: t, st, h => inv_mrun t (mstep st ev) (inv_mstep st ev h)

theorem statusOf_of_processes_eq (st st1 : EnhancedClaudeManager)
    (h : st1.processes = st.processes) (id : Str) : statusOf st1 id = statusOf st id := by
  unfold statusOf
  rw [h]

theorem settle_statusOf_ne (st : EnhancedClaudeManager) (id : Str) (outcome : Except Str Str)
    (id1 : Str) (hne : id1 ≠ id) :
    statusOf (settle st id outcome) id1 = statusOf st id1 := by
  by_cases hp : id ∈ st.pending
  · rcases hfind : mfind st.processes id with - | p
    · rw [settle_none st id outcome hp hfind]
      rfl
    · cases outcome with
      | ok o =>
        rw [settle_eq_ok st id o hp p hfind]
        unfold statusOf
        dsimp only
        rw [mfind_mput_ne _ _ _ _ hne]
      | error m =>
        rw [settle_eq_error st id m hp p hfind]
        unfold statusOf
        dsimp only
        rw [mfind_mput_ne _ _ _ _ hne]
  · rw [settle_not_pending st id outcome hp]

theorem statusOf_settle_self (st : EnhancedClaudeManager) (id : Str) (outcome : Except Str Str)
    (p : ClaudeProcess) (hp : id ∈ st.pending) (hfind : mfind st.processes id = some p) :
    statusOf (settle st id outcome) id =
      some (match outcome with
            | Except.ok _ => Status.completed
            | Except.error _ => Status.failed) := by
  cases outcome with
  | ok o =>
    rw [settle_eq_ok st id o hp p hfind]
    unfold statusOf
    dsimp only
    rw [mfind_mput_self]
    rfl
  | error m =>
    rw [settle_eq_error st id m hp p hfind]
    unfold statusOf
    dsimp only
    rw [mfind_mput_self]
    rfl

/-- The single-step heart of the amended claim C1: from any state satisfying
the pending-settlement invariant, a terminal record can change status only
from `killed`, only through a settlement callback of its id, and only to
`completed` or `failed`. -/
theorem step_terminal (st : EnhancedClaudeManager) (hInv : Inv st) (ev : MEvent) (id : Str)
    (s s1 : Status)
    (h : statusOf st id = some s)
    (h1 : statusOf (mstep st ev) id = some s1)
    (hterm : s ≠ Status.running) (hch : s1 ≠ s) :
    s = Status.killed ∧ settlesId ev id ∧ (s1 = Status.completed ∨ s1 = Status.failed) := by
  rcases hfind : mfind st.processes id with - | p
  · unfold statusOf at h
    rw [hfind] at h
    exact Option.noConfusion h
  have hs : p.status = s := by
    unfold statusOf at h
    rw [hfind] at h
    exact Option.some.inj h
  cases ev with
  | start cmd =>
    have heq : statusOf (mstep st (MEvent.start cmd)) id = statusOf st id := by
      show statusOf (execStart st cmd).2 id = _
      unfold execStart
      dsimp only
      split
      · rfl
      split
      · rfl
      split
      · rfl
      · next hdup =>
        have hne : id ≠ cmd.id := fun he => hdup (by rw [← he, hfind]; rfl)
        unfold statusOf
        dsimp only
        rw [mfind_mput_ne _ _ _ _ hne]
    exact absurd (Option.some.inj ((h1.symm.trans heq).trans h)) hch
  | chunk cid src d =>
    have heq : statusOf (mstep st (MEvent.chunk cid src d)) id = statusOf st id :=
      statusOf_of_processes_eq st _ (chunkStep_processes st cid src d) id
    exact absurd (Option.some.inj ((h1.symm.trans heq).trans h)) hch
  | childExit eid code sg o e =>
    obtain ⟨st2, outcome, hproc, hpend, heq2⟩ := childExitStep_as_settle st eid code sg o e
    by_cases hid : eid = id
    · subst hid
      by_cases hp : eid ∈ st2.pending
      · have hfind2 : mfind st2.processes eid = some p := by rw [hproc]; exact hfind
        have hnp : ¬ (p.status = Status.completed ∨ p.status = Status.failed) := by
          intro hc
          exact hInv eid p hfind hc (hpend ▸ hp)
        have hskill : s = Status.killed := by
          rw [← hs]
          cases hps : p.status
          · rw [← hs, hps] at hterm
            exact absurd rfl hterm
          · exact absurd (Or.inl hps) hnp
          · exact absurd (Or.inr hps) hnp
          · rfl
        have hset := statusOf_settle_self st2 eid outcome p hp hfind2
        have h1' : statusOf (settle st2 eid outcome) eid = some s1 := by
          rw [← heq2]
          exact h1
        rw [hset] at h1'
        have hs1 := (Option.some.inj h1').symm
        refine ⟨hskill, rfl, ?_⟩
        cases outcome with
        | ok o1 => exact Or.inl hs1
        | error m1 => exact Or.inr hs1
      · have heq : statusOf (mstep st (MEvent.childExit eid code sg o e)) eid = statusOf st eid := by
          show statusOf (childExitStep st eid code sg o e) eid = _
          rw [heq2, settle_not_pending st2 eid outcome hp]
          exact statusOf_of_processes_eq st st2 hproc eid
        exact absurd (Option.some.inj ((h1.symm.trans heq).trans h)) hch
    · have hne : id ≠ eid := fun he => hid he.symm
      have heq : statusOf (mstep st (MEvent.childExit eid code sg o e)) id = statusOf st id := by
        show statusOf (childExitStep st eid code sg o e) id = _
        rw [heq2, settle_statusOf_ne st2 eid outcome id hne]
        exact statusOf_of_processes_eq st st2 hproc id
      exact absurd (Option.some.inj ((h1.symm.trans heq).trans h)) hch
  | childError eid m =>
    obtain ⟨st2, outcome, hproc, hpend, heq2⟩ := childErrorStep_as_settle st eid m
    by_cases hid : eid = id
    · subst hid
      by_cases hp : eid ∈ st2.pending
      · have hfind2 : mfind st2.processes eid = some p := by rw [hproc]; exact hfind
        have hnp : ¬ (p.status = Status.completed ∨ p.status = Status.failed) := by
          intro hc
          exact hInv eid p hfind hc (hpend ▸ hp)
        have hskill : s = Status.killed := by
          rw [← hs]
          cases hps : p.status
          · rw [← hs, hps] at hterm
            exact absurd rfl hterm
          · exact absurd (Or.inl hps) hnp
          · exact absurd (Or.inr hps) hnp
          · rfl
        have hset := statusOf_settle_self st2 eid outcome p hp hfind2
        have h1' : statusOf (settle st2 eid outcome) eid = some s1 := by
          rw [← heq2]
          exact h1
        rw [hset] at h1'
        have hs1 := (Option.some.inj h1').symm
        refine ⟨hskill, rfl, ?_⟩
        cases outcome with
        | ok o1 => exact Or.inl hs1
        | error m1 => exact Or.inr hs1
      · have heq : statusOf (mstep st (MEvent.childError eid m)) eid = statusOf st eid := by
          show statusOf (childErrorStep st eid m) eid = _
          rw [heq2, settle_not_pending st2 eid outcome hp]
          exact statusOf_of_processes_eq st st2 hproc eid
        exact absurd (Option.some.inj ((h1.symm.trans heq).trans h)) hch
    · have hne : id ≠ eid := fun he => hid he.symm
      have heq : statusOf (mstep st (MEvent.childError eid m)) id = statusOf st id := by
        show statusOf (childErrorStep st eid m) id = _
        rw [heq2, settle_statusOf_ne st2 eid outcome id hne]
        exact statusOf_of_processes_eq st st2 hproc id
      exact absurd (Option.some.inj ((h1.symm.trans heq).trans h)) hch
  | timeoutFire eid t =>
    obtain ⟨outcome, heq2⟩ := timeoutStep_as_settle st eid t
    by_cases hid : eid = id
    · subst hid
      by_cases hp : eid ∈ st.pending
      · have hnp : ¬ (p.status = Status.completed ∨ p.status = Status.failed) := by
          intro hc
          exact hInv eid p hfind hc hp
        have hskill : s = Status.killed := by
          rw [← hs]
          cases hps : p.status
          · rw [← hs, hps] at hterm
            exact absurd rfl hterm
          · exact absurd (Or.inl hps) hnp
          · exact absurd (Or.inr hps) hnp
          · rfl
        have hset := statusOf_settle_self st eid outcome p hp hfind
        have h1' : statusOf (settle st eid outcome) eid = some s1 := by
          rw [← heq2]
          exact h1
        rw [hset] at h1'
        have hs1 := (Option.some.inj h1').symm
        refine ⟨hskill, rfl, ?_⟩
        cases outcome with
        | ok o1 => exact Or.inl hs1
        | error m1 => exact Or.inr hs1
      · have heq : statusOf (mstep st (MEvent.timeoutFire eid t)) eid = statusOf st eid := by
          show statusOf (timeoutStep st eid t) eid = _
          rw [heq2, settle_not_pending st eid outcome hp]
        exact absurd (Option.some.inj ((h1.symm.trans heq).trans h)) hch
    · have hne : id ≠ eid := fun he => hid he.symm
      have heq : statusOf (mstep st (MEvent.timeoutFire eid t)) id = statusOf st id := by
        show statusOf (timeoutStep st eid t) id = _
        rw [heq2, settle_statusOf_ne st eid outcome id hne]
      exact absurd (Option.some.inj ((h1.symm.trans heq).trans h)) hch
  | kill kid =>
    by_cases hid : kid = id
    · subst hid
      have heq : statusOf (mstep st (MEvent.kill kid)) kid = statusOf st kid := by
        show statusOf (killProcess st kid).2 kid = _
        rw [kill_not_running st kid p hfind (by rw [hs]; exact hterm)]
      exact absurd (Option.some.inj ((h1.symm.trans heq).trans h)) hch
    · have hne : id ≠ kid := fun he => hid he.symm
      have heq : statusOf (mstep st (MEvent.kill kid)) id = statusOf st id := by
        show statusOf (killProcess st kid).2 id = _
        rcases hfk : mfind st.processes kid with - | q
        · rw [kill_none st kid hfk]
        · by_cases hq : q.status = Status.running
          · obtain ⟨st1, hproc, hpend, heqk⟩ := kill_running st kid q hfk hq
            rw [heqk]
            unfold statusOf
            dsimp only
            rw [mfind_mput_ne _ _ _ _ hne, hproc]
          · rw [kill_not_running st kid q hfk hq]
      exact absurd (Option.some.inj ((h1.symm.trans heq).trans h)) hch
  | shutdownEvent =>
    rcases shutdownStep_cases st with heqs | heqs
    · have heq : statusOf (mstep st MEvent.shutdownEvent) id = statusOf st id := by
        show statusOf (shutdownStep st) id = _
        rw [heqs]
      exact absurd (Option.some.inj ((h1.symm.trans heq).trans h)) hch
    · have : statusOf (shutdownStep st) id = none := by
        unfold statusOf
        rw [heqs]
        rfl
      rw [show mstep st MEvent.shutdownEvent = shutdownStep st from rfl, this] at h1
      exact Option.noConfusion h1

/-- Counterexample to claim C1: after `killProcess` the record of `p1` is in
the terminal status `killed`, yet when the SIGTERM'd child's exit callback
fires (code `null`), the `catch` block of `executeCommand` overwrites the
record to `failed` — a terminal record IS re-opened and changed. -/
theorem claim_C1_counterexample :
    statusOf (mrun initManager trKilled) (str "p1") = some Status.killed
    ∧ statusOf (mrun initManager (trKilled ++ [evExitAfterKill])) (str "p1") = some Status.failed := by
  constructor <;> decide

/-- Claim C1 (amended): status transitions are one-directional out of
`running`, and records in `completed` or `failed` never change again; but a
record in `killed` is overwritten once more when the settlement callback of
its still-pending execution fires (child exit, spawn error, or timeout),
moving it to `completed` or `failed`.  Formally: any status change of a
non-`running` record can only be from `killed`, only through a settlement
event of that id, and only to `completed` or `failed`. -/
theorem claim_C1 (tr : List MEvent) (ev : MEvent) (id : Str) (s s1 : Status)
    (h : statusOf (mrun initManager tr) id = some s)
    (h1 : statusOf (mstep (mrun initManager tr) ev) id = some s1)
    (hterm : s ≠ Status.running) (hch : s1 ≠ s) :
    s = Status.killed ∧ settlesId ev id ∧ (s1 = Status.completed ∨ s1 = Status.failed) :=
  step_terminal (mrun initManager tr) (inv_mrun tr initManager inv_initManager) ev id s s1
    h h1 hterm hch

/-- Witness for claim C1 on the kill-then-exit trace. -/
theorem claim_C1_witness :
    statusOf (mrun initManager trKilled) (str "p1") = some Status.killed
    ∧ statusOf (mstep (mrun initManager trKilled) evExitAfterKill) (str "p1") = some Status.failed
    ∧ (Status.killed = Status.killed ∧ settlesId evExitAfterKill (str "p1")
        ∧ (Status.failed = Status.completed ∨ Status.failed = Status.failed)) :=
  ⟨by decide, by decide,
    claim_C1 trKilled evExitAfterKill (str "p1") Status.killed Status.failed
      (by decide) (by decide) (by decide) (by decide)⟩

/-- Witness for claim C10 at a freshly started `p1` with child exit code 7. -/
theorem claim_C10_witness :
    (str "p1") ∈ (mrun initManager [MEvent.start cmdP1]).pending
    ∧ mfind (mrun initManager [MEvent.start cmdP1]).processes (str "p1") =
        some { id := str "p1", command := cmdP1, status := Status.running,
               pid := some 0, exitCode := none, error := none }
    ∧ (some 7 : Option Int) ≠ some 0
    ∧ ({ id := str "p1", command := cmdP1, status := Status.running,
         pid := some 0, exitCode := none, error := none } : ClaudeProcess).status = Status.running
    ∧ exitCodeOf (childExitStep (mrun initManager [MEvent.start cmdP1]) (str "p1")
        (some 7) none [] (str "boom")) (str "p1") = some 1
    ∧ exitCodeOf (killProcess (mrun initManager [MEvent.start cmdP1]) (str "p1")).2
        (str "p1") = some (-1) := by
  refine ⟨by decide, by decide, by decide, by decide, ?_, ?_⟩
  · exact (claim_C10 (mrun initManager [MEvent.start cmdP1]) (str "p1")
      { id := str "p1", command := cmdP1, status := Status.running,
        pid := some 0, exitCode := none, error := none }
      (some 7) none [] (str "boom") [] 0 (by decide) (by decide) (by decide) (by decide)).1
  · exact (claim_C10 (mrun initManager [MEvent.start cmdP1]) (str "p1")
      { id := str "p1", command := cmdP1, status := Status.running,
        pid := some 0, exitCode := none, error := none }
      (some 7) none [] (str "boom") [] 0 (by decide) (by decide) (by decide) (by decide)).2.2.2

/-! ## Streamer claims (C5, C7, C8) -/

/-- Counterexample to claim C5: open a stream for `p`, buffer the chunk `a`,
then `stopStreaming`.  The stream is closed, but the buffer entry is NOT
released (`stopStreaming` only deletes from `activeStreams`), so the
subsequent `getFullOutput` returns `a`, not the empty string. -/
theorem claim_C5_counterexample :
    ClaudeOutputStreamer.isStreaming
      (ClaudeOutputStreamer.stopStreaming
        (ClaudeOutputStreamer.streamOutput
          (ClaudeOutputStreamer.startStreaming (ClaudeOutputStreamer.init 1000) (str "p"))
          { processId := str "p", type := StreamType.stdout, data := str "a", exitCode := none })
        (str "p")) (str "p") = false
    ∧ ClaudeOutputStreamer.getFullOutput
        (ClaudeOutputStreamer.stopStreaming
          (ClaudeOutputStreamer.streamOutput
            (ClaudeOutputStreamer.startStreaming (ClaudeOutputStreamer.init 1000) (str "p"))
            { processId := str "p", type := StreamType.stdout, data := str "a", exitCode := none })
          (str "p")) (str "p") = str "a" := by
  constructor <;> decide

/-- Claim C5 (amended): for every process id with an open stream,
`stopStreaming` closes the stream but retains the buffer entry untouched, so
a subsequent `getFullOutput` returns exactly what it returned before the stop
(the buffered chunks joined), not the empty string. -/
theorem claim_C5 (s : ClaudeOutputStreamer) (pid : Str) (h : pid ∈ s.activeStreams) :
    ClaudeOutputStreamer.isStreaming (ClaudeOutputStreamer.stopStreaming s pid) pid = false
    ∧ (ClaudeOutputStreamer.stopStreaming s pid).buffers = s.buffers
    ∧ ClaudeOutputStreamer.getFullOutput (ClaudeOutputStreamer.stopStreaming s pid) pid
        = ClaudeOutputStreamer.getFullOutput s pid := by
  unfold ClaudeOutputStreamer.stopStreaming
  rw [if_pos h]
  refine ⟨?_, rfl, rfl⟩
  unfold ClaudeOutputStreamer.isStreaming
  simp [List.mem_filter]

/-- Witness for claim C5 on a freshly opened stream. -/
theorem claim_C5_witness :
    (str "p") ∈ (ClaudeOutputStreamer.startStreaming
        (ClaudeOutputStreamer.init 1000) (str "p")).activeStreams
    ∧ (ClaudeOutputStreamer.isStreaming
        (ClaudeOutputStreamer.stopStreaming
          (ClaudeOutputStreamer.startStreaming (ClaudeOutputStreamer.init 1000) (str "p"))
          (str "p")) (str "p") = false
      ∧ (ClaudeOutputStreamer.stopStreaming
          (ClaudeOutputStreamer.startStreaming (ClaudeOutputStreamer.init 1000) (str "p"))
          (str "p")).buffers
          = (ClaudeOutputStreamer.startStreaming
              (ClaudeOutputStreamer.init 1000) (str "p")).buffers
      ∧ ClaudeOutputStreamer.getFullOutput
          (ClaudeOutputStreamer.stopStreaming
            (ClaudeOutputStreamer.startStreaming (ClaudeOutputStreamer.init 1000) (str "p"))
            (str "p")) (str "p")
          = ClaudeOutputStreamer.getFullOutput
              (ClaudeOutputStreamer.startStreaming
                (ClaudeOutputStreamer.init 1000) (str "p")) (str "p")) :=
  ⟨by decide,
    claim_C5 (ClaudeOutputStreamer.startStreaming (ClaudeOutputStreamer.init 1000) (str "p"))
      (str "p") (by decide)⟩

theorem addToBuffer_activeStreams (s : ClaudeOutputStreamer) (pid : Str) (d : Str) :
    (ClaudeOutputStreamer.addToBuffer s pid d).activeStreams = s.activeStreams := by
  unfold ClaudeOutputStreamer.addToBuffer
  split <;> rfl

theorem addToBuffer_eventLog (s : ClaudeOutputStreamer) (pid : Str) (d : Str) :
    (ClaudeOutputStreamer.addToBuffer s pid d).eventLog = s.eventLog := by
  unfold ClaudeOutputStreamer.addToBuffer
  split <;> rfl

theorem addToBuffer_maxBufferSize (s : ClaudeOutputStreamer) (pid : Str) (d : Str) :
    (ClaudeOutputStreamer.addToBuffer s pid d).maxBufferSize = s.maxBufferSize := by
  unfold ClaudeOutputStreamer.addToBuffer
  split <;> rfl

theorem streamOutput_activeStreams (s : ClaudeOutputStreamer) (o : ClaudeOutput) :
    (ClaudeOutputStreamer.streamOutput s o).activeStreams = s.activeStreams := by
  unfold ClaudeOutputStreamer.streamOutput
  split
  · show (ClaudeOutputStreamer.addToBuffer s o.processId o.data).activeStreams = s.activeStreams
    exact addToBuffer_activeStreams s o.processId o.data
  · rfl

theorem streamOutput_eventLog_active (s : ClaudeOutputStreamer) (o : ClaudeOutput)
    (h : o.processId ∈ s.activeStreams) :
    (ClaudeOutputStreamer.streamOutput s o).eventLog
      = s.eventLog ++ [streamEventOfOutput o] := by
  unfold ClaudeOutputStreamer.streamOutput
  rw [if_pos h]
  show (ClaudeOutputStreamer.addToBuffer s o.processId o.data).eventLog ++ _ = _
  rw [addToBuffer_eventLog]
  rfl

theorem srun_outs (pid : Str) : ∀ (outs : List ClaudeOutput) (s : ClaudeOutputStreamer),
    pid ∈ s.activeStreams → (∀ o ∈ outs, o.processId = pid) →
    (srun s (outs.map SOp.out)).activeStreams = s.activeStreams
    ∧ (srun s (outs.map SOp.out)).eventLog = s.eventLog ++ outs.map streamEventOfOutput
  | [], s, _, _ => by
    refine ⟨rfl, ?_⟩
    simp [srun]
  | o :: t, s, hact, houts => by
    have ho : o.processId = pid := houts o (List.mem_cons_self o t)
    have hmem : o.processId ∈ s.activeStreams := ho ▸ hact
    have hstep : srun s ((o :: t).map SOp.out)
        = srun (ClaudeOutputStreamer.streamOutput s o) (t.map SOp.out) := rfl
    have ih := srun_outs pid t (ClaudeOutputStreamer.streamOutput s o)
      (by rw [streamOutput_activeStreams]; exact hact)
      (fun o1 h1 => houts o1 (List.mem_cons_of_mem o h1))
    refine ⟨?_, ?_⟩
    · rw [hstep, ih.1, streamOutput_activeStreams]
    · rw [hstep, ih.2, streamOutput_eventLog_active s o hmem]
      simp

theorem streamProcessExit_spec (s : ClaudeOutputStreamer) (pid : Str) (code : Int)
    (h : pid ∈ s.activeStreams) :
    (ClaudeOutputStreamer.streamProcessExit s pid code).eventLog
        = s.eventLog ++ [ClaudeOutputStreamer.exitStreamEvent pid code]
    ∧ pid ∉ (ClaudeOutputStreamer.streamProcessExit s pid code).activeStreams := by
  unfold ClaudeOutputStreamer.streamProcessExit
  rw [if_pos h]
  unfold ClaudeOutputStreamer.stopStreaming
  rw [if_pos h]
  refine ⟨rfl, ?_⟩
  simp [List.mem_filter]

theorem filterLog_snoc_ne (l : List ClaudeStreamEvent) (e : ClaudeStreamEvent) (pid : Str)
    (h : ¬ e.processId = pid) :
    (l ++ [e]).filter (fun x => decide (x.processId = pid))
      = l.filter (fun x => decide (x.processId = pid)) := by
  rw [List.filter_append]
  simp [h]

theorem sstep_inactive (s : ClaudeOutputStreamer) (op : SOp) (pid : Str)
    (hact : pid ∉ s.activeStreams) (hop : op ≠ SOp.start pid) :
    eventsFor (sstep s op) pid = eventsFor s pid ∧ pid ∉ (sstep s op).activeStreams := by
  cases op with
  | start q =>
    have hq : q ≠ pid := fun he => hop (by rw [he])
    have hgoal : eventsFor (ClaudeOutputStreamer.startStreaming s q) pid = eventsFor s pid
        ∧ pid ∉ (ClaudeOutputStreamer.startStreaming s q).activeStreams := by
      unfold ClaudeOutputStreamer.startStreaming
      split
      · exact ⟨rfl, hact⟩
      · refine ⟨rfl, ?_⟩
        intro hmem
        rcases List.mem_append.mp hmem with hm | hm
        · exact hact hm
        · exact hq (List.mem_singleton.mp hm).symm
    exact hgoal
  | out o =>
    have hgoal : eventsFor (ClaudeOutputStreamer.streamOutput s o) pid = eventsFor s pid
        ∧ pid ∉ (ClaudeOutputStreamer.streamOutput s o).activeStreams := by
      unfold ClaudeOutputStreamer.streamOutput
      split
      · next ho =>
        have hne : ¬ o.processId = pid := fun he => hact (he ▸ ho)
        constructor
        · unfold eventsFor
          show ((ClaudeOutputStreamer.addToBuffer s o.processId o.data).eventLog ++ _).filter _ = _
          rw [addToBuffer_eventLog, filterLog_snoc_ne _ _ _ hne]
        · show pid ∉ (ClaudeOutputStreamer.addToBuffer s o.processId o.data).activeStreams
          rw [addToBuffer_activeStreams]
          exact hact
      · exact ⟨rfl, hact⟩
    exact hgoal
  | err q m =>
    have hgoal : eventsFor (ClaudeOutputStreamer.streamError s q m) pid = eventsFor s pid
        ∧ pid ∉ (ClaudeOutputStreamer.streamError s q m).activeStreams := by
      unfold ClaudeOutputStreamer.streamError
      split
      · next ho =>
        have hne : ¬ q = pid := fun he => hact (he ▸ ho)
        constructor
        · unfold eventsFor
          show ((ClaudeOutputStreamer.addToBuffer s q m).eventLog ++ _).filter _ = _
          rw [addToBuffer_eventLog]
          exact filterLog_snoc_ne _ _ _ hne
        · show pid ∉ (ClaudeOutputStreamer.addToBuffer s q m).activeStreams
          rw [addToBuffer_activeStreams]
          exact hact
      · exact ⟨rfl, hact⟩
    exact hgoal
  | exit q c =>
    have hgoal : eventsFor (ClaudeOutputStreamer.streamProcessExit s q c) pid = eventsFor s pid
        ∧ pid ∉ (ClaudeOutputStreamer.streamProcessExit s q c).activeStreams := by
      unfold ClaudeOutputStreamer.streamProcessExit
      split
      · next ho =>
        have hq : ¬ q = pid := fun he => hact (he ▸ ho)
        unfold ClaudeOutputStreamer.stopStreaming
        split
        all_goals constructor
        all_goals first
          | (unfold eventsFor
             show (s.eventLog ++ _).filter _ = _
             exact filterLog_snoc_ne _ _ _ hq)
          | (intro hmem
             exact hact (mem_of_mem_filter_ne hmem).1)
      · exact ⟨rfl, hact⟩
    exact hgoal
  | stop q =>
    have hgoal : eventsFor (ClaudeOutputStreamer.stopStreaming s q) pid = eventsFor s pid
        ∧ pid ∉ (ClaudeOutputStreamer.stopStreaming s q).activeStreams := by
      unfold ClaudeOutputStreamer.stopStreaming
      split
      · constructor
        · rfl
        · intro hmem
          exact hact (mem_of_mem_filter_ne hmem).1
      · exact ⟨rfl, hact⟩
    exact hgoal
  | shutdownOp =>
    exact ⟨rfl, List.not_mem_nil pid⟩

theorem srun_inactive (pid : Str) : ∀ (ops : List SOp) (s : ClaudeOutputStreamer),
    pid ∉ s.activeStreams → SOp.start pid ∉ ops →
    eventsFor (srun s ops) pid = eventsFor s pid ∧ pid ∉ (srun s ops).activeStreams
  | [], s, hact, _ => ⟨rfl, hact⟩
  | op :: t, s, hact, hops => by
    have hop : op ≠ SOp.start pid := fun he => hops (he ▸ List.mem_cons_self op t)
    have hstep := sstep_inactive s op pid hact hop
    have ih := srun_inactive pid t (sstep s op) hstep.2
      (fun hm => hops (List.mem_cons_of_mem op hm))
    exact ⟨ih.1.trans hstep.1, ih.2⟩

theorem filter_all_eq (l : List ClaudeStreamEvent) (pid : Str)
    (h : ∀ e ∈ l, e.processId = pid) :
    l.filter (fun x => decide (x.processId = pid)) = l :=
  List.filter_eq_self.mpr (fun a ha => by simp [h a ha])

/-- Claim C7 (confirmed): in a streaming session for one process id — stream
opened, any sequence of stdout/stderr chunks for that id, then the exit
event, then arbitrary further operations that do not re-open the id's stream —
a subscriber on the id's channels observes exactly the chunks in arrival
order followed by the exit event as the last event for that id, and after the
exit event the stream is closed (`stopStreaming` has run), so nothing for
that id can follow. -/
theorem claim_C7 (maxB : Nat) (pid : Str) (outs : List ClaudeOutput) (code : Int)
    (extra : List SOp)
    (houts : ∀ o ∈ outs, o.processId = pid ∧ (o.type = StreamType.stdout ∨ o.type = StreamType.stderr))
    (hextra : SOp.start pid ∉ extra) :
    eventsFor (srun (ClaudeOutputStreamer.init maxB)
        ([SOp.start pid] ++ outs.map SOp.out ++ [SOp.exit pid code] ++ extra)) pid
      = outs.map streamEventOfOutput ++ [ClaudeOutputStreamer.exitStreamEvent pid code]
    ∧ ClaudeOutputStreamer.isStreaming (srun (ClaudeOutputStreamer.init maxB)
        ([SOp.start pid] ++ outs.map SOp.out ++ [SOp.exit pid code] ++ extra)) pid = false := by
  have hsplit : srun (ClaudeOutputStreamer.init maxB)
      ([SOp.start pid] ++ outs.map SOp.out ++ [SOp.exit pid code] ++ extra)
      = srun (srun (srun (srun (ClaudeOutputStreamer.init maxB) [SOp.start pid])
          (outs.map SOp.out)) [SOp.exit pid code]) extra := by
    unfold srun
    rw [List.foldl_append, List.foldl_append, List.foldl_append]
  set s1 := srun (ClaudeOutputStreamer.init maxB) [SOp.start pid] with hs1
  have hs1eq : s1 = ClaudeOutputStreamer.startStreaming (ClaudeOutputStreamer.init maxB) pid := rfl
  have hs1act : pid ∈ s1.activeStreams := by
    rw [hs1eq]
    unfold ClaudeOutputStreamer.startStreaming ClaudeOutputStreamer.init
    rw [if_neg (List.not_mem_nil pid)]
    simp
  have hs1log : s1.eventLog = [] := by
    rw [hs1eq]
    unfold ClaudeOutputStreamer.startStreaming ClaudeOutputStreamer.init
    rw [if_neg (List.not_mem_nil pid)]
  obtain ⟨hact2, hlog2⟩ := srun_outs pid outs s1 hs1act (fun o ho => (houts o ho).1)
  set s2 := srun s1 (outs.map SOp.out) with hs2
  have hs2act : pid ∈ s2.activeStreams := by
    rw [hact2]
    exact hs1act
  have hexit := streamProcessExit_spec s2 pid code hs2act
  set s3 := srun s2 [SOp.exit pid code] with hs3
  have hs3eq : s3 = ClaudeOutputStreamer.streamProcessExit s2 pid code := rfl
  obtain ⟨hfin_log, hfin_act⟩ := srun_inactive pid extra s3 (hs3eq ▸ hexit.2) hextra
  constructor
  · rw [hsplit, hfin_log]
    unfold eventsFor
    rw [hs3eq, hexit.1, hlog2, hs1log, List.nil_append]
    apply filter_all_eq
    intro e he
    rcases List.mem_append.mp he with hm | hm
    · obtain ⟨o, ho, hoe⟩ := List.mem_map.mp hm
      rw [← hoe]
      exact (houts o ho).1
    · rw [List.mem_singleton.mp hm]
      rfl
  · rw [hsplit]
    unfold ClaudeOutputStreamer.isStreaming
    exact decide_eq_false hfin_act

/-- Witness for claim C7 on the session `a`, `b`, exit 0, with a late chunk
for the same id arriving after the exit. -/
theorem claim_C7_witness :
    (∀ o ∈ ([{ processId := str "p", type := StreamType.stdout, data := str "a", exitCode := none },
             { processId := str "p", type := StreamType.stderr, data := str "b", exitCode := none }] :
             List ClaudeOutput),
        o.processId = str "p" ∧ (o.type = StreamType.stdout ∨ o.type = StreamType.stderr))
    ∧ SOp.start (str "p") ∉
        ([SOp.out { processId := str "p", type := StreamType.stdout, data := str "late",
                    exitCode := none }] : List SOp)
    ∧ (eventsFor (srun (ClaudeOutputStreamer.init 1000)
          ([SOp.start (str "p")] ++
            ([{ processId := str "p", type := StreamType.stdout, data := str "a", exitCode := none },
              { processId := str "p", type := StreamType.stderr, data := str "b", exitCode := none }] :
              List ClaudeOutput).map SOp.out ++
            [SOp.exit (str "p") 0] ++
            [SOp.out { processId := str "p", type := StreamType.stdout, data := str "late",
                       exitCode := none }])) (str "p")
        = ([{ processId := str "p", type := StreamType.stdout, data := str "a", exitCode := none },
            { processId := str "p", type := StreamType.stderr, data := str "b", exitCode := none }] :
            List ClaudeOutput).map streamEventOfOutput
          ++ [ClaudeOutputStreamer.exitStreamEvent (str "p") 0]
      ∧ ClaudeOutputStreamer.isStreaming (srun (ClaudeOutputStreamer.init 1000)
          ([SOp.start (str "p")] ++
            ([{ processId := str "p", type := StreamType.stdout, data := str "a", exitCode := none },
              { processId := str "p", type := StreamType.stderr, data := str "b", exitCode := none }] :
              List ClaudeOutput).map SOp.out ++
            [SOp.exit (str "p") 0] ++
            [SOp.out { processId := str "p", type := StreamType.stdout, data := str "late",
                       exitCode := none }])) (str "p") = false) :=
  ⟨by decide, by decide,
    claim_C7 1000 (str "p")
      [{ processId := str "p", type := StreamType.stdout, data := str "a", exitCode := none },
       { processId := str "p", type := StreamType.stderr, data := str "b", exitCode := none }]
      0
      [SOp.out { processId := str "p", type := StreamType.stdout, data := str "late",
                 exitCode := none }]
      (by decide) (by decide)⟩

theorem streamOutput_chunk_spec (s : ClaudeOutputStreamer) (id : Str) (c : ChunkSrc × Str)
    (buf : List Str) (hact : id ∈ s.activeStreams) (hfind : mfind s.buffers id = some buf)
    (hlen : buf.length + 1 ≤ s.maxBufferSize) :
    (ClaudeOutputStreamer.streamOutput s (outputOfChunk id c)).activeStreams = s.activeStreams
    ∧ (ClaudeOutputStreamer.streamOutput s (outputOfChunk id c)).maxBufferSize = s.maxBufferSize
    ∧ mfind (ClaudeOutputStreamer.streamOutput s (outputOfChunk id c)).buffers id
        = some (buf ++ [c.2]) := by
  unfold ClaudeOutputStreamer.streamOutput
  rw [if_pos (show (outputOfChunk id c).processId ∈ s.activeStreams from hact)]
  have haddb : (ClaudeOutputStreamer.addToBuffer s (outputOfChunk id c).processId
      (outputOfChunk id c).data).buffers = mput s.buffers id (buf ++ [c.2]) := by
    show (ClaudeOutputStreamer.addToBuffer s id c.2).buffers = _
    unfold ClaudeOutputStreamer.addToBuffer
    rw [hfind]
    dsimp only
    rw [if_neg (by rw [List.length_append]; simp; omega)]
  refine ⟨?_, ?_, ?_⟩
  · show (ClaudeOutputStreamer.addToBuffer s (outputOfChunk id c).processId
        (outputOfChunk id c).data).activeStreams = s.activeStreams
    exact addToBuffer_activeStreams _ _ _
  · show (ClaudeOutputStreamer.addToBuffer s (outputOfChunk id c).processId
        (outputOfChunk id c).data).maxBufferSize = s.maxBufferSize
    exact addToBuffer_maxBufferSize _ _ _
  · show mfind (ClaudeOutputStreamer.addToBuffer s (outputOfChunk id c).processId
        (outputOfChunk id c).data).buffers id = some (buf ++ [c.2])
    rw [haddb, mfind_mput_self]

theorem runChildChunks_spec (id : Str) :
    ∀ (chunks : List (ChunkSrc × Str)) (s : ClaudeOutputStreamer) (buf : List Str),
    id ∈ s.activeStreams → mfind s.buffers id = some buf →
    buf.length + chunks.length ≤ s.maxBufferSize →
    (runChildChunks s id chunks).activeStreams = s.activeStreams
    ∧ (runChildChunks s id chunks).maxBufferSize = s.maxBufferSize
    ∧ mfind (runChildChunks s id chunks).buffers id
        = some (buf ++ chunks.map (fun c => c.2))
  | [], s, buf, _, hfind, _ =>
    ⟨rfl, rfl, by show mfind s.buffers id = _; rw [hfind]; simp⟩
  | c :: t, s, buf, hact, hfind, hlen => by
    have hstream : ClaudeOutputStreamer.isStreaming s id = true := decide_eq_true hact
    have hstep : runChildChunks s id (c :: t)
        = runChildChunks (ClaudeOutputStreamer.streamOutput s (outputOfChunk id c)) id t := by
      unfold runChildChunks
      rw [List.foldl_cons, if_pos hstream]
    obtain ⟨ha, hm, hb⟩ := streamOutput_chunk_spec s id c buf hact hfind
      (by simp at hlen; omega)
    obtain ⟨iha, ihm, ihb⟩ := runChildChunks_spec id t
      (ClaudeOutputStreamer.streamOutput s (outputOfChunk id c)) (buf ++ [c.2])
      (by rw [ha]; exact hact) hb
      (by rw [hm, List.length_append]; simp at hlen ⊢; omega)
    refine ⟨?_, ?_, ?_⟩
    · rw [hstep, iha, ha]
    · rw [hstep, ihm, hm]
    · rw [hstep, ihb]
      simp

theorem accumulate_go : ∀ (chunks : List (ChunkSrc × Str)) (acc : Str),
    (∀ c ∈ chunks, c.1 = ChunkSrc.stdoutSrc) →
    chunks.foldl (fun acc c => if c.1 = ChunkSrc.stdoutSrc then acc ++ c.2 else acc) acc
      = acc ++ (chunks.map (fun c => c.2)).flatten
  | [], acc, _ => by simp
  | c :: t, acc, h => by
    rw [List.foldl_cons, if_pos (h c (List.mem_cons_self c t)),
        accumulate_go t _ (fun c1 h1 => h c1 (List.mem_cons_of_mem c h1))]
    simp

theorem accumulate_eq_flatten (chunks : List (ChunkSrc × Str))
    (h : ∀ c ∈ chunks, c.1 = ChunkSrc.stdoutSrc) :
    accumulate chunks = (chunks.map (fun c => c.2)).flatten := by
  unfold accumulate
  rw [accumulate_go chunks [] h]
  simp

theorem streamProcessExit_buffers (s : ClaudeOutputStreamer) (pid : Str) (code : Int) :
    (ClaudeOutputStreamer.streamProcessExit s pid code).buffers = s.buffers := by
  unfold ClaudeOutputStreamer.streamProcessExit ClaudeOutputStreamer.stopStreaming
  split <;> rfl

/-- Counterexample to claim C8: a command that writes `a` to stdout and `b`
to stderr and exits 0.  `executeCommand` resolves with the stdout
accumulation `a`, but `executeStreamingCommand` prefers the streamer's
buffered full output, which interleaves BOTH stdout and stderr chunks,
yielding `ab` ≠ `a`. -/
theorem claim_C8_counterexample :
    executeStreamingOutput 1000 (str "p")
      [(ChunkSrc.stdoutSrc, str "a"), (ChunkSrc.stderrSrc, str "b")] = str "ab"
    ∧ executeCommandOutput
      [(ChunkSrc.stdoutSrc, str "a"), (ChunkSrc.stderrSrc, str "b")] = str "a"
    ∧ executeStreamingOutput 1000 (str "p")
        [(ChunkSrc.stdoutSrc, str "a"), (ChunkSrc.stderrSrc, str "b")]
      ≠ executeCommandOutput [(ChunkSrc.stdoutSrc, str "a"), (ChunkSrc.stderrSrc, str "b")] := by
  refine ⟨by decide, by decide, by decide⟩

/-- Claim C8 (amended): for every successfully completing command whose child
writes to stdout only, and whose chunk count stays within the streamer's
buffer bound, the text returned by `executeStreamingCommand` (the buffered
full output, with fallback to the synchronous accumulation when the buffer
yields the empty string) equals the text `executeCommand` returns for the
same chunk sequence.  (With stderr output, or with more chunks than
`maxBufferSize`, the two differ — see the counterexample.) -/
theorem claim_C8 (maxB : Nat) (id : Str) (chunks : List (ChunkSrc × Str))
    (h1 : ∀ c ∈ chunks, c.1 = ChunkSrc.stdoutSrc)
    (h2 : chunks.length ≤ (ClaudeOutputStreamer.init maxB).maxBufferSize) :
    executeStreamingOutput maxB id chunks = executeCommandOutput chunks := by
  unfold executeStreamingOutput
  dsimp only
  set s0 := ClaudeOutputStreamer.startStreaming (ClaudeOutputStreamer.init maxB) id with hs0
  have hs0act : id ∈ s0.activeStreams := by
    rw [hs0]
    unfold ClaudeOutputStreamer.startStreaming ClaudeOutputStreamer.init
    rw [if_neg (List.not_mem_nil id)]
    simp
  have hs0find : mfind s0.buffers id = some [] := by
    rw [hs0]
    unfold ClaudeOutputStreamer.startStreaming ClaudeOutputStreamer.init
    rw [if_neg (List.not_mem_nil id)]
    exact mfind_mput_self _ id []
  have hs0max : s0.maxBufferSize = (ClaudeOutputStreamer.init maxB).maxBufferSize := by
    rw [hs0]
    unfold ClaudeOutputStreamer.startStreaming
    split <;> rfl
  obtain ⟨hact1, hmax1, hbuf1⟩ := runChildChunks_spec id chunks s0 [] hs0act hs0find
    (by rw [hs0max]; simpa using h2)
  have hstream1 : ClaudeOutputStreamer.isStreaming (runChildChunks s0 id chunks) id = true :=
    decide_eq_true (by rw [hact1]; exact hs0act)
  rw [if_pos hstream1]
  have hfull : ClaudeOutputStreamer.getFullOutput
      (ClaudeOutputStreamer.streamProcessExit (runChildChunks s0 id chunks) id 0) id
      = (chunks.map (fun c => c.2)).flatten := by
    unfold ClaudeOutputStreamer.getFullOutput
    rw [streamProcessExit_buffers, hbuf1]
    simp
  rw [hfull]
  have haccum : accumulate chunks = (chunks.map (fun c => c.2)).flatten :=
    accumulate_eq_flatten chunks h1
  unfold executeCommandOutput
  split
  · rfl
  · exact haccum.symm

/-- Witness for claim C8 on a single stdout chunk. -/
theorem claim_C8_witness :
    (∀ c ∈ ([(ChunkSrc.stdoutSrc, str "hi")] : List (ChunkSrc × Str)), c.1 = ChunkSrc.stdoutSrc)
    ∧ ([(ChunkSrc.stdoutSrc, str "hi")] : List (ChunkSrc × Str)).length
        ≤ (ClaudeOutputStreamer.init 1000).maxBufferSize
    ∧ executeStreamingOutput 1000 (str "p") [(ChunkSrc.stdoutSrc, str "hi")]
        = executeCommandOutput [(ChunkSrc.stdoutSrc, str "hi")] :=
  ⟨by decide, by decide,
    claim_C8 1000 (str "p") [(ChunkSrc.stdoutSrc, str "hi")] (by decide) (by decide)⟩

end PixelCli
